import Mathlib

/-!
Verification of the toy payments engine (src/engine.rs, src/model.rs, src/error.rs).

The engine is embedded shallowly:
* `rust_decimal::Decimal` amounts are modelled by `Int`: a decimal value is
  mantissa * 10 ^ (-scale) with scale <= 28, so mapping it to the integer
  mantissa * 10 ^ (28 - scale) is injective and preserves addition,
  subtraction, equality and order exactly — and those are the only operations
  the engine performs on amounts (`+=`, `-=`, `>=`, `==`).
* `HashMap<u16, Account>` and `HashMap<u32, TransactionRecord>` are modelled by
  association lists with `find` / `insert` / `update` operations mirroring
  `get`, `insert` and `get_mut`-then-mutate; `HashSet<u32>` is modelled by a
  duplicate-free-on-insert list with `setInsert` / `setErase`.
* `process_transaction(&mut self, record) -> Result<(), ApplicationError>` is
  modelled as a pure function returning the successor state together with the
  `Result`; in the Rust code no mutation precedes any `Err` return, so the
  returned state on an error is the unchanged input state, matching `&mut self`.
-/

namespace Payments

/-- TransactionType from src/model.rs. -/
inductive TransactionType where
  | deposit
  | withdrawal
  | dispute
  | resolve
  | chargeback
deriving DecidableEq, Repr

/-- Monetary amounts: exact image of rust_decimal::Decimal inside the integers,
in units of 10 ^ -28. -/
abbrev Money := Int

/-- TransactionRecord from src/model.rs. Client ids (u16) and transaction ids
(u32) are modelled as Nat; the engine only compares them for equality. -/
structure TransactionRecord where
  transaction_type : TransactionType
  client_id : Nat
  transaction_id : Nat
  amount : Option Money
deriving DecidableEq, Repr

/-- Account from src/model.rs; the three Decimal balances are written as Int
(the type Money abbreviates) so that arithmetic tactics see them directly. -/
structure Account where
  available : Int
  held : Int
  total : Int
  locked : Bool
deriving DecidableEq, Repr

/-- Account::new from src/model.rs: zero balances, unlocked. -/
def Account.new : Account :=
  { available := 0, held := 0, total := 0, locked := false }

/-- The two ApplicationError variants (src/error.rs) that
Engine::process_transaction can produce; the Io/Csv/Decimal variants arise only
in the driver and never from the engine. -/
inductive ApplicationError where
  | accountNotFound (client_id : Nat) (transaction_type : TransactionType)
  | transactionNotFound (transaction_id : Nat) (transaction_type : TransactionType)
deriving DecidableEq, Repr

instance : DecidableEq (Except ApplicationError Unit) := fun a b =>
  match a, b with
  | .ok x, .ok y =>
      match x, y with
      | (), () => isTrue rfl
  | .ok _, .error _ => isFalse (fun h => Except.noConfusion h)
  | .error _, .ok _ => isFalse (fun h => Except.noConfusion h)
  | .error ea, .error eb =>
      match decEq ea eb with
      | isTrue h => isTrue (by rw [h])
      | isFalse h => isFalse (fun hh => h (by cases hh; rfl))

namespace AList

/-- Lookup in an association list, mirroring HashMap::get. -/
def find {α : Type} (l : List (Nat × α)) (k : Nat) : Option α :=
  match l with
  | [] => none
  | (k2, v) :: t => if k2 = k then some v else find t k

/-- Key membership, mirroring HashMap::contains_key. -/
def contains {α : Type} (l : List (Nat × α)) (k : Nat) : Bool :=
  (find l k).isSome

/-- Insert-or-replace, mirroring HashMap::insert. -/
def insert {α : Type} (l : List (Nat × α)) (k : Nat) (v : α) : List (Nat × α) :=
  match l with
  | [] => [(k, v)]
  | (k2, v2) :: t => if k2 = k then (k, v) :: t else (k2, v2) :: insert t k v

/-- Apply a function to every binding of key k, mirroring mutation through
HashMap::get_mut (HashMap keys are unique, so at most one binding is hit in
any state that corresponds to a Rust map). -/
def update {α : Type} (l : List (Nat × α)) (k : Nat) (f : α → α) : List (Nat × α) :=
  match l with
  | [] => []
  | (k2, v) :: t =>
    if k2 = k then (k2, f v) :: update t k f else (k2, v) :: update t k f

end AList

/-- Set insertion, mirroring HashSet::insert. -/
def setInsert (l : List Nat) (t : Nat) : List Nat :=
  if l.contains t then l else t :: l

/-- Set removal, mirroring HashSet::remove. -/
def setErase (l : List Nat) (t : Nat) : List Nat :=
  l.filter (fun x => x ≠ t)

/-- Engine state from src/engine.rs: accounts, applied-transaction index,
open-dispute set. -/
structure Engine where
  accounts : List (Nat × Account)
  transactions : List (Nat × TransactionRecord)
  disputes : List Nat
deriving DecidableEq, Repr

/-- Engine::new from src/engine.rs. -/
def Engine.new : Engine :=
  { accounts := [], transactions := [], disputes := [] }

/-- The body of the entry(client_id).or_insert_with(Account::new) call in the
Deposit arm: insert a fresh account when the client is absent. -/
def entryOrNew (l : List (Nat × Account)) (c : Nat) : List (Nat × Account) :=
  if AList.contains l c then l else AList.insert l c Account.new

/-- Engine::process_transaction from src/engine.rs, lines 21-211, translated
arm by arm. The returned Engine is the post-state of &mut self; the Except is
the returned Result. -/
def processTransaction (e : Engine) (record : TransactionRecord) :
    Engine × Except ApplicationError Unit :=
  let client_id := record.client_id
  let transaction_id := record.transaction_id
  match record.transaction_type with
  | .deposit =>
    match record.amount with
    | none => (e, .ok ())
    | some amount =>
      let accounts1 := entryOrNew e.accounts client_id
      let account := (AList.find accounts1 client_id).getD Account.new
      let e1 : Engine := { e with accounts := accounts1 }
      if account.locked then (e1, .ok ())
      else if AList.contains e.transactions transaction_id then (e1, .ok ())
      else
        ({ e1 with
            accounts := AList.update accounts1 client_id (fun a =>
              { a with available := a.available + amount, total := a.total + amount }),
            transactions := AList.insert e.transactions transaction_id record },
          .ok ())
  | .withdrawal =>
    match record.amount with
    | none => (e, .ok ())
    | some amount =>
      match AList.find e.accounts client_id with
      | none => (e, .ok ())
      | some account =>
        if account.locked then (e, .ok ())
        else if AList.contains e.transactions transaction_id then (e, .ok ())
        else if amount ≤ account.available then
          ({ e with
              accounts := AList.update e.accounts client_id (fun a =>
                { a with available := a.available - amount, total := a.total - amount }),
              transactions := AList.insert e.transactions transaction_id record },
            .ok ())
        else (e, .ok ())
  | .dispute =>
    match AList.find e.transactions transaction_id with
    | none => (e, .ok ())
    | some disputed_transaction =>
      if e.disputes.contains transaction_id then (e, .ok ())
      else if client_id ≠ disputed_transaction.client_id then (e, .ok ())
      else
        match AList.find e.accounts disputed_transaction.client_id with
        | none => (e, .error (.accountNotFound client_id .dispute))
        | some _ =>
          match disputed_transaction.amount with
          | some amount =>
            ({ e with
                accounts := AList.update e.accounts disputed_transaction.client_id (fun a =>
                  { a with available := a.available - amount, held := a.held + amount }),
                disputes := setInsert e.disputes transaction_id },
              .ok ())
          | none => (e, .ok ())
  | .resolve =>
    if ¬ e.disputes.contains transaction_id then (e, .ok ())
    else
      match AList.find e.transactions transaction_id with
      | none => (e, .error (.transactionNotFound transaction_id .dispute))
      | some disputed_transaction =>
        if client_id ≠ disputed_transaction.client_id then (e, .ok ())
        else
          match AList.find e.accounts disputed_transaction.client_id with
          | none => (e, .error (.accountNotFound client_id .resolve))
          | some _ =>
            match disputed_transaction.amount with
            | some amount =>
              ({ e with
                  accounts := AList.update e.accounts disputed_transaction.client_id (fun a =>
                    { a with held := a.held - amount, available := a.available + amount }),
                  disputes := setErase e.disputes transaction_id },
                .ok ())
            | none => (e, .ok ())
  | .chargeback =>
    if ¬ e.disputes.contains transaction_id then (e, .ok ())
    else
      match AList.find e.transactions transaction_id with
      | none => (e, .error (.transactionNotFound transaction_id .chargeback))
      | some disputed_transaction =>
        if client_id ≠ disputed_transaction.client_id then (e, .ok ())
        else
          match AList.find e.accounts disputed_transaction.client_id with
          | none => (e, .error (.accountNotFound client_id .resolve))
          | some _ =>
            match disputed_transaction.amount with
            | some amount =>
              ({ e with
                  accounts := AList.update e.accounts disputed_transaction.client_id (fun a =>
                    { a with held := a.held - amount, total := a.total - amount, locked := true }),
                  disputes := setErase e.disputes transaction_id },
                .ok ())
            | none => (e, .ok ())

/-- One driver step: apply a record, keep the (possibly unchanged) state; the
driver in src/main.rs logs an Err and continues with the same engine. -/
def step (e : Engine) (r : TransactionRecord) : Engine :=
  (processTransaction e r).1

/-- Replay a whole record sequence from a state, as the driver loop does. -/
def run (e : Engine) (rs : List TransactionRecord) : Engine :=
  rs.foldl step e

section MapLemmas

namespace AList

variable {α : Type}

theorem find_cons_eq {k2 c : Nat} (v : α) (t : List (Nat × α)) (h : k2 = c) :
    find ((k2, v) :: t) c = some v := by
  rw [find, if_pos h]

theorem find_cons_ne {k2 c : Nat} (v : α) (t : List (Nat × α)) (h : ¬ k2 = c) :
    find ((k2, v) :: t) c = find t c := by
  rw [find, if_neg h]

theorem find_insert (l : List (Nat × α)) (k : Nat) (v : α) (c : Nat) :
    find (insert l k v) c = if c = k then some v else find l c := by
  induction l with
  | nil =>
      by_cases h : c = k
      · rw [if_pos h, insert, find_cons_eq _ _ h.symm]
      · rw [if_neg h, insert, find_cons_ne _ _ (fun hh => h hh.symm), find]
  | cons p t ih =>
      obtain ⟨k2, v2⟩ := p
      by_cases hk : k2 = k
      · rw [insert, if_pos hk]
        by_cases h : c = k
        · rw [if_pos h, find_cons_eq _ _ h.symm]
        · rw [if_neg h, find_cons_ne _ _ (fun hh => h hh.symm),
              find_cons_ne _ _ (fun hh => h (hk ▸ hh).symm)]
      · rw [insert, if_neg hk]
        by_cases h2 : k2 = c
        · have hck : ¬ c = k := fun hc => hk (h2.trans hc)
          rw [if_neg hck, find_cons_eq _ _ h2, find_cons_eq _ _ h2]
        · rw [find_cons_ne _ _ h2, find_cons_ne _ _ h2, ih]

theorem find_update (l : List (Nat × α)) (k : Nat) (f : α → α) (c : Nat) :
    find (update l k f) c = if c = k then (find l c).map f else find l c := by
  induction l with
  | nil =>
      by_cases h : c = k
      · rw [if_pos h, update]
        rfl
      · rw [if_neg h, update]
  | cons p t ih =>
      obtain ⟨k2, v2⟩ := p
      by_cases hk : k2 = k
      · rw [update, if_pos hk]
        by_cases h : k2 = c
        · have hck : c = k := h ▸ hk
          rw [if_pos hck, find_cons_eq _ _ h, find_cons_eq _ _ h]
          rfl
        · rw [find_cons_ne _ _ h, find_cons_ne _ _ h, ih]
      · rw [update, if_neg hk]
        by_cases h : k2 = c
        · have hck : ¬ c = k := fun hc => hk (h.trans hc)
          rw [if_neg hck, find_cons_eq _ _ h, find_cons_eq _ _ h]
        · rw [find_cons_ne _ _ h, find_cons_ne _ _ h, ih]

theorem contains_eq_true_iff (l : List (Nat × α)) (k : Nat) :
    contains l k = true ↔ ∃ v, find l k = some v := by
  unfold contains
  cases h : find l k <;> simp [h]

theorem contains_eq_false_iff (l : List (Nat × α)) (k : Nat) :
    contains l k = false ↔ find l k = none := by
  unfold contains
  cases h : find l k <;> simp [h]

theorem contains_update (l : List (Nat × α)) (k : Nat) (f : α → α) (c : Nat) :
    contains (update l k f) c = contains l c := by
  unfold contains
  rw [find_update]
  by_cases h : c = k
  · rw [if_pos h]
    cases find l c <;> simp
  · rw [if_neg h]

theorem update_update (l : List (Nat × α)) (k : Nat) (f g : α → α) :
    update (update l k f) k g = update l k (fun a => g (f a)) := by
  induction l with
  | nil => rw [update, update, update]
  | cons p t ih =>
      obtain ⟨k2, v2⟩ := p
      by_cases hk : k2 = k
      · rw [update, if_pos hk, update, if_pos hk, update, if_pos hk, ih]
      · rw [update, if_neg hk, update, if_neg hk, update, if_neg hk, ih]

theorem update_congr_id (l : List (Nat × α)) (k : Nat) (f : α → α)
    (h : ∀ a, f a = a) : update l k f = l := by
  induction l with
  | nil => rw [update]
  | cons p t ih =>
      obtain ⟨k2, v2⟩ := p
      by_cases hk : k2 = k
      · rw [update, if_pos hk, h, ih]
      · rw [update, if_neg hk, ih]

end AList

theorem entryOrNew_of_contains (l : List (Nat × Account)) (c : Nat)
    (h : AList.contains l c = true) : entryOrNew l c = l := by
  simp [entryOrNew, h]

theorem find_entryOrNew_self (l : List (Nat × Account)) (c : Nat) :
    AList.find (entryOrNew l c) c = some ((AList.find l c).getD Account.new) := by
  unfold entryOrNew
  by_cases h : AList.contains l c = true
  · obtain ⟨v, hv⟩ := (AList.contains_eq_true_iff l c).mp h
    rw [if_pos h, hv]
    rfl
  · have hn : AList.find l c = none :=
      (AList.contains_eq_false_iff l c).mp (by simpa using h)
    rw [if_neg h, AList.find_insert, if_pos rfl, hn]
    rfl

theorem find_entryOrNew (l : List (Nat × Account)) (c c2 : Nat) :
    AList.find (entryOrNew l c) c2 =
      if c2 = c then some ((AList.find l c).getD Account.new) else AList.find l c2 := by
  by_cases h : c2 = c
  · subst h
    rw [if_pos rfl, find_entryOrNew_self]
  · rw [if_neg h]
    unfold entryOrNew
    by_cases hc : AList.contains l c = true
    · rw [if_pos hc]
    · rw [if_neg hc, AList.find_insert, if_neg h]

theorem mem_setInsert (l : List Nat) (t x : Nat) :
    x ∈ setInsert l t ↔ x = t ∨ x ∈ l := by
  unfold setInsert
  by_cases h : l.contains t = true
  · rw [if_pos h]
    have ht : t ∈ l := by simpa using h
    constructor
    · exact fun hx => Or.inr hx
    · intro hx
      rcases hx with hx | hx
      · exact hx ▸ ht
      · exact hx
  · rw [if_neg h]
    simp

theorem mem_setErase (l : List Nat) (t x : Nat) :
    x ∈ setErase l t ↔ x ∈ l ∧ x ≠ t := by
  unfold setErase
  simp

theorem setErase_setInsert (l : List Nat) (t : Nat)
    (h : t ∉ l) : setErase (setInsert l t) t = l := by
  have hc : ¬ l.contains t = true := by simpa using h
  unfold setInsert setErase
  rw [if_neg hc, List.filter_cons]
  have ht : (decide (t ≠ t) : Bool) = false := by simp
  simp only [ht]
  simp only [Bool.false_eq_true, if_false]
  apply List.filter_eq_self.mpr
  intro x hx
  have hxt : x ≠ t := fun he => h (he ▸ hx)
  simpa using hxt

end MapLemmas

/-- The account produced by the entry(client).or_insert_with(Account::new) call
of the Deposit arm. -/
def depositAccount (e : Engine) (c : Nat) : Account :=
  (AList.find (entryOrNew e.accounts c) c).getD Account.new

/-- Case-analysis principle enumerating every leaf of
Engine::process_transaction: each hypothesis is one control-flow path of the
Rust match, with its guard conditions, and states P at the pair that path
returns. All later invariant proofs factor through it. -/
theorem process_cases (e : Engine) (r : TransactionRecord)
    (P : Engine × Except ApplicationError Unit → Prop)
    (d1 : r.transaction_type = .deposit → r.amount = none → P (e, .ok ()))
    (d2 : ∀ a, r.transaction_type = .deposit → r.amount = some a →
      (depositAccount e r.client_id).locked = true →
      P ({ e with accounts := entryOrNew e.accounts r.client_id }, .ok ()))
    (d3 : ∀ a, r.transaction_type = .deposit → r.amount = some a →
      (depositAccount e r.client_id).locked = false →
      AList.contains e.transactions r.transaction_id = true →
      P ({ e with accounts := entryOrNew e.accounts r.client_id }, .ok ()))
    (d4 : ∀ a, r.transaction_type = .deposit → r.amount = some a →
      (depositAccount e r.client_id).locked = false →
      AList.contains e.transactions r.transaction_id = false →
      P ({ e with
            accounts := AList.update (entryOrNew e.accounts r.client_id) r.client_id
              (fun x => { x with available := x.available + a, total := x.total + a }),
            transactions := AList.insert e.transactions r.transaction_id r }, .ok ()))
    (w1 : r.transaction_type = .withdrawal → r.amount = none → P (e, .ok ()))
    (w2 : ∀ a, r.transaction_type = .withdrawal → r.amount = some a →
      AList.find e.accounts r.client_id = none → P (e, .ok ()))
    (w3 : ∀ a acc, r.transaction_type = .withdrawal → r.amount = some a →
      AList.find e.accounts r.client_id = some acc → acc.locked = true → P (e, .ok ()))
    (w4 : ∀ a acc, r.transaction_type = .withdrawal → r.amount = some a →
      AList.find e.accounts r.client_id = some acc → acc.locked = false →
      AList.contains e.transactions r.transaction_id = true → P (e, .ok ()))
    (w5 : ∀ a acc, r.transaction_type = .withdrawal → r.amount = some a →
      AList.find e.accounts r.client_id = some acc → acc.locked = false →
      AList.contains e.transactions r.transaction_id = false → a ≤ acc.available →
      P ({ e with
            accounts := AList.update e.accounts r.client_id
              (fun x => { x with available := x.available - a, total := x.total - a }),
            transactions := AList.insert e.transactions r.transaction_id r }, .ok ()))
    (w6 : ∀ a acc, r.transaction_type = .withdrawal → r.amount = some a →
      AList.find e.accounts r.client_id = some acc → acc.locked = false →
      AList.contains e.transactions r.transaction_id = false → ¬ a ≤ acc.available →
      P (e, .ok ()))
    (s1 : r.transaction_type = .dispute →
      AList.find e.transactions r.transaction_id = none → P (e, .ok ()))
    (s2 : ∀ dt, r.transaction_type = .dispute →
      AList.find e.transactions r.transaction_id = some dt →
      e.disputes.contains r.transaction_id = true → P (e, .ok ()))
    (s3 : ∀ dt, r.transaction_type = .dispute →
      AList.find e.transactions r.transaction_id = some dt →
      e.disputes.contains r.transaction_id = false →
      r.client_id ≠ dt.client_id → P (e, .ok ()))
    (s4 : ∀ dt, r.transaction_type = .dispute →
      AList.find e.transactions r.transaction_id = some dt →
      e.disputes.contains r.transaction_id = false →
      r.client_id = dt.client_id →
      AList.find e.accounts dt.client_id = none →
      P (e, .error (.accountNotFound r.client_id .dispute)))
    (s5 : ∀ dt acc, r.transaction_type = .dispute →
      AList.find e.transactions r.transaction_id = some dt →
      e.disputes.contains r.transaction_id = false →
      r.client_id = dt.client_id →
      AList.find e.accounts dt.client_id = some acc →
      dt.amount = none → P (e, .ok ()))
    (s6 : ∀ dt acc a, r.transaction_type = .dispute →
      AList.find e.transactions r.transaction_id = some dt →
      e.disputes.contains r.transaction_id = false →
      r.client_id = dt.client_id →
      AList.find e.accounts dt.client_id = some acc →
      dt.amount = some a →
      P ({ e with
            accounts := AList.update e.accounts dt.client_id
              (fun x => { x with available := x.available - a, held := x.held + a }),
            disputes := setInsert e.disputes r.transaction_id }, .ok ()))
    (r1 : r.transaction_type = .resolve →
      e.disputes.contains r.transaction_id = false → P (e, .ok ()))
    (r2 : r.transaction_type = .resolve →
      e.disputes.contains r.transaction_id = true →
      AList.find e.transactions r.transaction_id = none →
      P (e, .error (.transactionNotFound r.transaction_id .dispute)))
    (r3 : ∀ dt, r.transaction_type = .resolve →
      e.disputes.contains r.transaction_id = true →
      AList.find e.transactions r.transaction_id = some dt →
      r.client_id ≠ dt.client_id → P (e, .ok ()))
    (r4 : ∀ dt, r.transaction_type = .resolve →
      e.disputes.contains r.transaction_id = true →
      AList.find e.transactions r.transaction_id = some dt →
      r.client_id = dt.client_id →
      AList.find e.accounts dt.client_id = none →
      P (e, .error (.accountNotFound r.client_id .resolve)))
    (r5 : ∀ dt acc, r.transaction_type = .resolve →
      e.disputes.contains r.transaction_id = true →
      AList.find e.transactions r.transaction_id = some dt →
      r.client_id = dt.client_id →
      AList.find e.accounts dt.client_id = some acc →
      dt.amount = none → P (e, .ok ()))
    (r6 : ∀ dt acc a, r.transaction_type = .resolve →
      e.disputes.contains r.transaction_id = true →
      AList.find e.transactions r.transaction_id = some dt →
      r.client_id = dt.client_id →
      AList.find e.accounts dt.client_id = some acc →
      dt.amount = some a →
      P ({ e with
            accounts := AList.update e.accounts dt.client_id
              (fun x => { x with held := x.held - a, available := x.available + a }),
            disputes := setErase e.disputes r.transaction_id }, .ok ()))
    (c1 : r.transaction_type = .chargeback →
      e.disputes.contains r.transaction_id = false → P (e, .ok ()))
    (c2 : r.transaction_type = .chargeback →
      e.disputes.contains r.transaction_id = true →
      AList.find e.transactions r.transaction_id = none →
      P (e, .error (.transactionNotFound r.transaction_id .chargeback)))
    (c3 : ∀ dt, r.transaction_type = .chargeback →
      e.disputes.contains r.transaction_id = true →
      AList.find e.transactions r.transaction_id = some dt →
      r.client_id ≠ dt.client_id → P (e, .ok ()))
    (c4 : ∀ dt, r.transaction_type = .chargeback →
      e.disputes.contains r.transaction_id = true →
      AList.find e.transactions r.transaction_id = some dt →
      r.client_id = dt.client_id →
      AList.find e.accounts dt.client_id = none →
      P (e, .error (.accountNotFound r.client_id .resolve)))
    (c5 : ∀ dt acc, r.transaction_type = .chargeback →
      e.disputes.contains r.transaction_id = true →
      AList.find e.transactions r.transaction_id = some dt →
      r.client_id = dt.client_id →
      AList.find e.accounts dt.client_id = some acc →
      dt.amount = none → P (e, .ok ()))
    (c6 : ∀ dt acc a, r.transaction_type = .chargeback →
      e.disputes.contains r.transaction_id = true →
      AList.find e.transactions r.transaction_id = some dt →
      r.client_id = dt.client_id →
      AList.find e.accounts dt.client_id = some acc →
      dt.amount = some a →
      P ({ e with
            accounts := AList.update e.accounts dt.client_id
              (fun x => { x with held := x.held - a, total := x.total - a, locked := true }),
            disputes := setErase e.disputes r.transaction_id }, .ok ())) :
    P (processTransaction e r) := by
  obtain ⟨ty, cid, tid, amt⟩ := r
  cases ty <;> simp only [processTransaction]
  case deposit =>
    cases amt with
    | none => exact d1 rfl rfl
    | some a =>
        dsimp only
        by_cases hl : ((AList.find (entryOrNew e.accounts cid) cid).getD Account.new).locked = true
        · rw [if_pos hl]
          exact d2 a rfl rfl hl
        · rw [if_neg hl]
          have hl2 : (depositAccount e cid).locked = false := by
            revert hl
            unfold depositAccount
            cases ((AList.find (entryOrNew e.accounts cid) cid).getD Account.new).locked <;> simp
          by_cases hu : AList.contains e.transactions tid = true
          · rw [if_pos hu]
            exact d3 a rfl rfl hl2 hu
          · rw [if_neg hu]
            have hu2 : AList.contains e.transactions tid = false := by
              revert hu
              cases AList.contains e.transactions tid <;> simp
            exact d4 a rfl rfl hl2 hu2
  case withdrawal =>
    cases amt with
    | none => exact w1 rfl rfl
    | some a =>
        dsimp only
        cases hacc : AList.find e.accounts cid with
        | none => exact w2 a rfl rfl hacc
        | some acc =>
            dsimp only
            by_cases hl : acc.locked = true
            · rw [if_pos hl]
              exact w3 a acc rfl rfl hacc hl
            · rw [if_neg hl]
              have hl2 : acc.locked = false := by
                revert hl
                cases acc.locked <;> simp
              by_cases hu : AList.contains e.transactions tid = true
              · rw [if_pos hu]
                exact w4 a acc rfl rfl hacc hl2 hu
              · rw [if_neg hu]
                have hu2 : AList.contains e.transactions tid = false := by
                  revert hu
                  cases AList.contains e.transactions tid <;> simp
                by_cases hle : a ≤ acc.available
                · rw [if_pos hle]
                  exact w5 a acc rfl rfl hacc hl2 hu2 hle
                · rw [if_neg hle]
                  exact w6 a acc rfl rfl hacc hl2 hu2 hle
  case dispute =>
    cases htx : AList.find e.transactions tid with
    | none => exact s1 rfl htx
    | some dt =>
        dsimp only
        by_cases hds : e.disputes.contains tid = true
        · rw [if_pos hds]
          exact s2 dt rfl htx hds
        · rw [if_neg hds]
          have hds2 : e.disputes.contains tid = false := by
            revert hds
            cases e.disputes.contains tid <;> simp
          by_cases hcl : cid ≠ dt.client_id
          · rw [if_pos hcl]
            exact s3 dt rfl htx hds2 hcl
          · rw [if_neg hcl]
            have hcl2 : cid = dt.client_id := not_not.mp hcl
            cases hacc : AList.find e.accounts dt.client_id with
            | none => exact s4 dt rfl htx hds2 hcl2 hacc
            | some acc =>
                dsimp only
                cases hamt : dt.amount with
                | none => exact s5 dt acc rfl htx hds2 hcl2 hacc hamt
                | some a => exact s6 dt acc a rfl htx hds2 hcl2 hacc hamt
  case resolve =>
    by_cases hds : e.disputes.contains tid = true
    · rw [if_neg (not_not_intro hds)]
      cases htx : AList.find e.transactions tid with
      | none => exact r2 rfl hds htx
      | some dt =>
          dsimp only
          by_cases hcl : cid ≠ dt.client_id
          · rw [if_pos hcl]
            exact r3 dt rfl hds htx hcl
          · rw [if_neg hcl]
            have hcl2 : cid = dt.client_id := not_not.mp hcl
            cases hacc : AList.find e.accounts dt.client_id with
            | none => exact r4 dt rfl hds htx hcl2 hacc
            | some acc =>
                dsimp only
                cases hamt : dt.amount with
                | none => exact r5 dt acc rfl hds htx hcl2 hacc hamt
                | some a => exact r6 dt acc a rfl hds htx hcl2 hacc hamt
    · rw [if_pos hds]
      have hds2 : e.disputes.contains tid = false := by
        revert hds
        cases e.disputes.contains tid <;> simp
      exact r1 rfl hds2
  case chargeback =>
    by_cases hds : e.disputes.contains tid = true
    · rw [if_neg (not_not_intro hds)]
      cases htx : AList.find e.transactions tid with
      | none => exact c2 rfl hds htx
      | some dt =>
          dsimp only
          by_cases hcl : cid ≠ dt.client_id
          · rw [if_pos hcl]
            exact c3 dt rfl hds htx hcl
          · rw [if_neg hcl]
            have hcl2 : cid = dt.client_id := not_not.mp hcl
            cases hacc : AList.find e.accounts dt.client_id with
            | none => exact c4 dt rfl hds htx hcl2 hacc
            | some acc =>
                dsimp only
                cases hamt : dt.amount with
                | none => exact c5 dt acc rfl hds htx hcl2 hacc hamt
                | some a => exact c6 dt acc a rfl hds htx hcl2 hacc hamt
    · rw [if_pos hds]
      have hds2 : e.disputes.contains tid = false := by
        revert hds
        cases e.disputes.contains tid <;> simp
      exact c1 rfl hds2

/-- Generic induction along the driver loop. -/
theorem run_preserves (P : Engine → Prop)
    (hstep : ∀ e r, P e → P (step e r)) :
    ∀ (rs : List TransactionRecord) (e : Engine), P e → P (run e rs) := by
  intro rs
  induction rs with
  | nil => intro e he; exact he
  | cons r t ih =>
      intro e he
      exact ih (step e r) (hstep e r he)

section BalanceInvariant

/-- All accounts in an account list satisfy total = available + held. -/
def BalancedList (l : List (Nat × Account)) : Prop :=
  ∀ c a, AList.find l c = some a → a.total = a.available + a.held

theorem balancedList_entryOrNew (l : List (Nat × Account)) (c0 : Nat)
    (h : BalancedList l) : BalancedList (entryOrNew l c0) := by
  intro c a hf
  rw [find_entryOrNew] at hf
  by_cases hc : c = c0
  · rw [if_pos hc] at hf
    cases hl : AList.find l c0 with
    | none =>
        rw [hl] at hf
        obtain rfl := Option.some.inj hf
        rfl
    | some b =>
        rw [hl] at hf
        obtain rfl := Option.some.inj hf
        exact h c0 b hl
  · rw [if_neg hc] at hf
    exact h c a hf

theorem balancedList_update (l : List (Nat × Account)) (k : Nat) (f : Account → Account)
    (h : BalancedList l)
    (hf : ∀ a, a.total = a.available + a.held → (f a).total = (f a).available + (f a).held) :
    BalancedList (AList.update l k f) := by
  intro c a hfind
  rw [AList.find_update] at hfind
  by_cases hc : c = k
  · rw [if_pos hc] at hfind
    cases hl : AList.find l c with
    | none => rw [hl] at hfind; cases hfind
    | some b =>
        rw [hl] at hfind
        obtain rfl := Option.some.inj hfind
        exact hf b (h c b hl)
  · rw [if_neg hc] at hfind
    exact h c a hfind

theorem balanced_step (e : Engine) (r : TransactionRecord)
    (h : BalancedList e.accounts) :
    BalancedList (processTransaction e r).1.accounts := by
  apply process_cases e r (fun p => BalancedList p.1.accounts)
  case d1 => exact fun _ _ => h
  case d2 => exact fun _ _ _ _ => balancedList_entryOrNew _ _ h
  case d3 => exact fun _ _ _ _ _ => balancedList_entryOrNew _ _ h
  case d4 =>
      intro a _ _ _ _
      refine balancedList_update _ _ _ (balancedList_entryOrNew _ _ h) ?_
      intro x hx
      show x.total + a = (x.available + a) + x.held
      omega
  case w1 => exact fun _ _ => h
  case w2 => exact fun _ _ _ _ => h
  case w3 => exact fun _ _ _ _ _ _ => h
  case w4 => exact fun _ _ _ _ _ _ _ => h
  case w5 =>
      intro a acc _ _ _ _ _ _
      refine balancedList_update _ _ _ h ?_
      intro x hx
      show x.total - a = (x.available - a) + x.held
      omega
  case w6 => exact fun _ _ _ _ _ _ _ _ => h
  case s1 => exact fun _ _ => h
  case s2 => exact fun _ _ _ _ => h
  case s3 => exact fun _ _ _ _ _ => h
  case s4 => exact fun _ _ _ _ _ _ => h
  case s5 => exact fun _ _ _ _ _ _ _ _ => h
  case s6 =>
      intro dt acc a _ _ _ _ _ _
      refine balancedList_update _ _ _ h ?_
      intro x hx
      show x.total = (x.available - a) + (x.held + a)
      omega
  case r1 => exact fun _ _ => h
  case r2 => exact fun _ _ _ => h
  case r3 => exact fun _ _ _ _ _ => h
  case r4 => exact fun _ _ _ _ _ _ => h
  case r5 => exact fun _ _ _ _ _ _ _ _ => h
  case r6 =>
      intro dt acc a _ _ _ _ _ _
      refine balancedList_update _ _ _ h ?_
      intro x hx
      show x.total = (x.available + a) + (x.held - a)
      omega
  case c1 => exact fun _ _ => h
  case c2 => exact fun _ _ _ => h
  case c3 => exact fun _ _ _ _ _ => h
  case c4 => exact fun _ _ _ _ _ _ => h
  case c5 => exact fun _ _ _ _ _ _ _ _ => h
  case c6 =>
      intro dt acc a _ _ _ _ _ _
      refine balancedList_update _ _ _ h ?_
      intro x hx
      show x.total - a = x.available + (x.held - a)
      omega

theorem balanced_run (rs : List TransactionRecord) (e : Engine)
    (h : BalancedList e.accounts) : BalancedList (run e rs).accounts :=
  run_preserves (fun e2 => BalancedList e2.accounts) (fun e2 r2 h2 => balanced_step e2 r2 h2) rs e h

end BalanceInvariant

section StateLemmas

theorem find_entryOrNew_of_some (l : List (Nat × Account)) (c0 c : Nat) (v : Account)
    (h : AList.find l c = some v) : AList.find (entryOrNew l c0) c = some v := by
  rw [find_entryOrNew]
  by_cases hc : c = c0
  · subst hc
    rw [if_pos rfl, h]
    rfl
  · rw [if_neg hc]
    exact h

theorem contains_entryOrNew_mono (l : List (Nat × Account)) (c0 c : Nat)
    (h : AList.contains l c = true) : AList.contains (entryOrNew l c0) c = true := by
  obtain ⟨v, hv⟩ := (AList.contains_eq_true_iff l c).mp h
  exact (AList.contains_eq_true_iff _ c).mpr ⟨v, find_entryOrNew_of_some l c0 c v hv⟩

theorem contains_entryOrNew_self (l : List (Nat × Account)) (c : Nat) :
    AList.contains (entryOrNew l c) c = true :=
  (AList.contains_eq_true_iff _ c).mpr ⟨_, find_entryOrNew_self l c⟩

theorem contains_insert_mono {α : Type} (l : List (Nat × α)) (k : Nat) (v : α) (c : Nat)
    (h : AList.contains l c = true) : AList.contains (AList.insert l k v) c = true := by
  rw [AList.contains, AList.find_insert]
  by_cases hc : c = k
  · rw [if_pos hc]
    rfl
  · rw [if_neg hc]
    exact h

theorem contains_insert_self {α : Type} (l : List (Nat × α)) (k : Nat) (v : α) :
    AList.contains (AList.insert l k v) k = true := by
  rw [AList.contains, AList.find_insert, if_pos rfl]
  rfl

/-- A transaction record, once in the index, survives any further step with the
same id and content: the index only ever gains fresh ids. -/
theorem transactions_keep_step (e : Engine) (r : TransactionRecord) (t : Nat)
    (rec : TransactionRecord) (h : AList.find e.transactions t = some rec) :
    AList.find (processTransaction e r).1.transactions t = some rec := by
  apply process_cases e r
    (fun p => AList.find p.1.transactions t = some rec)
  case d1 => exact fun _ _ => h
  case d2 => exact fun _ _ _ _ => h
  case d3 => exact fun _ _ _ _ _ => h
  case d4 =>
      intro a _ _ _ hu
      show AList.find (AList.insert e.transactions r.transaction_id r) t = some rec
      rw [AList.find_insert]
      by_cases ht : t = r.transaction_id
      · subst ht
        rw [(AList.contains_eq_false_iff _ _).mp hu] at h
        cases h
      · rw [if_neg ht]
        exact h
  case w1 => exact fun _ _ => h
  case w2 => exact fun _ _ _ _ => h
  case w3 => exact fun _ _ _ _ _ _ => h
  case w4 => exact fun _ _ _ _ _ _ _ => h
  case w5 =>
      intro a acc _ _ _ _ hu _
      show AList.find (AList.insert e.transactions r.transaction_id r) t = some rec
      rw [AList.find_insert]
      by_cases ht : t = r.transaction_id
      · subst ht
        rw [(AList.contains_eq_false_iff _ _).mp hu] at h
        cases h
      · rw [if_neg ht]
        exact h
  case w6 => exact fun _ _ _ _ _ _ _ _ => h
  case s1 => exact fun _ _ => h
  case s2 => exact fun _ _ _ _ => h
  case s3 => exact fun _ _ _ _ _ => h
  case s4 => exact fun _ _ _ _ _ _ => h
  case s5 => exact fun _ _ _ _ _ _ _ _ => h
  case s6 => exact fun _ _ _ _ _ _ _ _ _ => h
  case r1 => exact fun _ _ => h
  case r2 => exact fun _ _ _ => h
  case r3 => exact fun _ _ _ _ _ => h
  case r4 => exact fun _ _ _ _ _ _ => h
  case r5 => exact fun _ _ _ _ _ _ _ _ => h
  case r6 => exact fun _ _ _ _ _ _ _ _ _ => h
  case c1 => exact fun _ _ => h
  case c2 => exact fun _ _ _ => h
  case c3 => exact fun _ _ _ _ _ => h
  case c4 => exact fun _ _ _ _ _ _ => h
  case c5 => exact fun _ _ _ _ _ _ _ _ => h
  case c6 => exact fun _ _ _ _ _ _ _ _ _ => h

theorem transactions_keep_run (s : Engine) (rs : List TransactionRecord) (t : Nat)
    (rec : TransactionRecord) (h : AList.find s.transactions t = some rec) :
    AList.find (run s rs).transactions t = some rec :=
  run_preserves (fun e => AList.find e.transactions t = some rec)
    (fun e r he => transactions_keep_step e r t rec he) rs s h

/-- Accounts are never deleted: key membership in the accounts map is
monotone along a step. -/
theorem accounts_mono_step (e : Engine) (r : TransactionRecord) (c : Nat)
    (h : AList.contains e.accounts c = true) :
    AList.contains (processTransaction e r).1.accounts c = true := by
  apply process_cases e r
    (fun p => AList.contains p.1.accounts c = true)
  case d1 => exact fun _ _ => h
  case d2 => exact fun _ _ _ _ => contains_entryOrNew_mono _ _ _ h
  case d3 => exact fun _ _ _ _ _ => contains_entryOrNew_mono _ _ _ h
  case d4 =>
      intro a _ _ _ _
      show AList.contains (AList.update (entryOrNew e.accounts r.client_id) r.client_id _) c = true
      rw [AList.contains_update]
      exact contains_entryOrNew_mono _ _ _ h
  case w1 => exact fun _ _ => h
  case w2 => exact fun _ _ _ _ => h
  case w3 => exact fun _ _ _ _ _ _ => h
  case w4 => exact fun _ _ _ _ _ _ _ => h
  case w5 =>
      intro a acc _ _ _ _ _ _
      show AList.contains (AList.update e.accounts r.client_id _) c = true
      rw [AList.contains_update]
      exact h
  case w6 => exact fun _ _ _ _ _ _ _ _ => h
  case s1 => exact fun _ _ => h
  case s2 => exact fun _ _ _ _ => h
  case s3 => exact fun _ _ _ _ _ => h
  case s4 => exact fun _ _ _ _ _ _ => h
  case s5 => exact fun _ _ _ _ _ _ _ _ => h
  case s6 =>
      intro dt acc a _ _ _ _ _ _
      show AList.contains (AList.update e.accounts dt.client_id _) c = true
      rw [AList.contains_update]
      exact h
  case r1 => exact fun _ _ => h
  case r2 => exact fun _ _ _ => h
  case r3 => exact fun _ _ _ _ _ => h
  case r4 => exact fun _ _ _ _ _ _ => h
  case r5 => exact fun _ _ _ _ _ _ _ _ => h
  case r6 =>
      intro dt acc a _ _ _ _ _ _
      show AList.contains (AList.update e.accounts dt.client_id _) c = true
      rw [AList.contains_update]
      exact h
  case c1 => exact fun _ _ => h
  case c2 => exact fun _ _ _ => h
  case c3 => exact fun _ _ _ _ _ => h
  case c4 => exact fun _ _ _ _ _ _ => h
  case c5 => exact fun _ _ _ _ _ _ _ _ => h
  case c6 =>
      intro dt acc a _ _ _ _ _ _
      show AList.contains (AList.update e.accounts dt.client_id _) c = true
      rw [AList.contains_update]
      exact h

end StateLemmas

section LockedLemmas

/-- The locked flag the engine sees for client c (false when the account does
not exist yet). -/
def lockedIn (l : List (Nat × Account)) (c : Nat) : Bool :=
  match AList.find l c with
  | some a => a.locked
  | none => false

theorem lockedIn_entryOrNew (l : List (Nat × Account)) (c0 c : Nat) :
    lockedIn (entryOrNew l c0) c = lockedIn l c := by
  unfold lockedIn
  rw [find_entryOrNew]
  by_cases hc : c = c0
  · subst hc
    rw [if_pos rfl]
    cases hl : AList.find l c with
    | none => rfl
    | some b => rfl
  · rw [if_neg hc]

theorem lockedIn_update_preserve (l : List (Nat × Account)) (k : Nat)
    (f : Account → Account) (c : Nat) (hf : ∀ x, (f x).locked = x.locked) :
    lockedIn (AList.update l k f) c = lockedIn l c := by
  unfold lockedIn
  rw [AList.find_update]
  by_cases hc : c = k
  · rw [if_pos hc]
    cases hl : AList.find l c with
    | none => rfl
    | some b =>
        show (f b).locked = b.locked
        exact hf b
  · rw [if_neg hc]

theorem lockedIn_update_mono (l : List (Nat × Account)) (k : Nat)
    (f : Account → Account) (c : Nat)
    (hf : ∀ x, x.locked = true → (f x).locked = true)
    (h : lockedIn l c = true) : lockedIn (AList.update l k f) c = true := by
  unfold lockedIn at h ⊢
  rw [AList.find_update]
  by_cases hc : c = k
  · rw [if_pos hc]
    cases hl : AList.find l c with
    | none => rw [hl] at h; cases h
    | some b =>
        rw [hl] at h
        exact hf b h
  · rw [if_neg hc]
    exact h

/-- The locked flag is monotone along one step. -/
theorem locked_mono_step (e : Engine) (r : TransactionRecord) (c : Nat)
    (h : lockedIn e.accounts c = true) :
    lockedIn (processTransaction e r).1.accounts c = true := by
  apply process_cases e r (fun p => lockedIn p.1.accounts c = true)
  case d1 => exact fun _ _ => h
  case d2 =>
      intro _ _ _ _
      show lockedIn (entryOrNew e.accounts r.client_id) c = true
      rw [lockedIn_entryOrNew]
      exact h
  case d3 =>
      intro _ _ _ _ _
      show lockedIn (entryOrNew e.accounts r.client_id) c = true
      rw [lockedIn_entryOrNew]
      exact h
  case d4 =>
      intro a _ _ _ _
      show lockedIn (AList.update (entryOrNew e.accounts r.client_id) r.client_id _) c = true
      refine lockedIn_update_mono _ _ _ _ (fun x hx => hx) ?_
      rw [lockedIn_entryOrNew]
      exact h
  case w1 => exact fun _ _ => h
  case w2 => exact fun _ _ _ _ => h
  case w3 => exact fun _ _ _ _ _ _ => h
  case w4 => exact fun _ _ _ _ _ _ _ => h
  case w5 =>
      intro a acc _ _ _ _ _ _
      exact lockedIn_update_mono _ _ _ _ (fun x hx => hx) h
  case w6 => exact fun _ _ _ _ _ _ _ _ => h
  case s1 => exact fun _ _ => h
  case s2 => exact fun _ _ _ _ => h
  case s3 => exact fun _ _ _ _ _ => h
  case s4 => exact fun _ _ _ _ _ _ => h
  case s5 => exact fun _ _ _ _ _ _ _ _ => h
  case s6 =>
      intro dt acc a _ _ _ _ _ _
      exact lockedIn_update_mono _ _ _ _ (fun x hx => hx) h
  case r1 => exact fun _ _ => h
  case r2 => exact fun _ _ _ => h
  case r3 => exact fun _ _ _ _ _ => h
  case r4 => exact fun _ _ _ _ _ _ => h
  case r5 => exact fun _ _ _ _ _ _ _ _ => h
  case r6 =>
      intro dt acc a _ _ _ _ _ _
      exact lockedIn_update_mono _ _ _ _ (fun x hx => hx) h
  case c1 => exact fun _ _ => h
  case c2 => exact fun _ _ _ => h
  case c3 => exact fun _ _ _ _ _ => h
  case c4 => exact fun _ _ _ _ _ _ => h
  case c5 => exact fun _ _ _ _ _ _ _ _ => h
  case c6 =>
      intro dt acc a _ _ _ _ _ _
      exact lockedIn_update_mono _ _ _ _ (fun x _ => rfl) h

theorem locked_mono_run (s : Engine) (rs : List TransactionRecord) (c : Nat)
    (h : lockedIn s.accounts c = true) : lockedIn (run s rs).accounts c = true :=
  run_preserves (fun e => lockedIn e.accounts c = true)
    (fun e r he => locked_mono_step e r c he) rs s h

/-- If one step flips the locked flag of some client from false to true, that
step was a chargeback that passed all its gates. -/
theorem locked_flip_step (e : Engine) (r : TransactionRecord) (c : Nat)
    (h0 : lockedIn e.accounts c = false)
    (h1 : lockedIn (processTransaction e r).1.accounts c = true) :
    r.transaction_type = .chargeback ∧ (processTransaction e r).2 = Except.ok () ∧
      e.disputes.contains r.transaction_id = true := by
  have main := process_cases e r
    (fun p => lockedIn p.1.accounts c = true →
      r.transaction_type = .chargeback ∧ p.2 = Except.ok () ∧
        e.disputes.contains r.transaction_id = true)
    (fun _ _ h2 => absurd (h0.symm.trans h2) (by simp))
    (fun _ _ _ _ h2 => by
      rw [show lockedIn ({ e with accounts := entryOrNew e.accounts r.client_id } :
            Engine).accounts c = lockedIn e.accounts c from lockedIn_entryOrNew _ _ _] at h2
      exact absurd (h0.symm.trans h2) (by simp))
    (fun _ _ _ _ _ h2 => by
      rw [show lockedIn ({ e with accounts := entryOrNew e.accounts r.client_id } :
            Engine).accounts c = lockedIn e.accounts c from lockedIn_entryOrNew _ _ _] at h2
      exact absurd (h0.symm.trans h2) (by simp))
    (fun a _ _ _ _ h2 => by
      rw [show (lockedIn (AList.update (entryOrNew e.accounts r.client_id) r.client_id
            (fun x => { x with available := x.available + a, total := x.total + a })) c) =
          lockedIn (entryOrNew e.accounts r.client_id) c from
            lockedIn_update_preserve _ _ _ _ (fun x => rfl), lockedIn_entryOrNew] at h2
      exact absurd (h0.symm.trans h2) (by simp))
    (fun _ _ h2 => absurd (h0.symm.trans h2) (by simp))
    (fun _ _ _ _ h2 => absurd (h0.symm.trans h2) (by simp))
    (fun _ _ _ _ _ _ h2 => absurd (h0.symm.trans h2) (by simp))
    (fun _ _ _ _ _ _ _ h2 => absurd (h0.symm.trans h2) (by simp))
    (fun a acc _ _ _ _ _ _ h2 => by
      rw [show (lockedIn (AList.update e.accounts r.client_id
            (fun x => { x with available := x.available - a, total := x.total - a })) c) =
          lockedIn e.accounts c from lockedIn_update_preserve _ _ _ _ (fun x => rfl)] at h2
      exact absurd (h0.symm.trans h2) (by simp))
    (fun _ _ _ _ _ _ _ _ h2 => absurd (h0.symm.trans h2) (by simp))
    (fun _ _ h2 => absurd (h0.symm.trans h2) (by simp))
    (fun _ _ _ _ h2 => absurd (h0.symm.trans h2) (by simp))
    (fun _ _ _ _ _ h2 => absurd (h0.symm.trans h2) (by simp))
    (fun _ _ _ _ _ _ h2 => absurd (h0.symm.trans h2) (by simp))
    (fun _ _ _ _ _ _ _ _ h2 => absurd (h0.symm.trans h2) (by simp))
    (fun dt acc a _ _ _ _ _ _ h2 => by
      rw [show (lockedIn (AList.update e.accounts dt.client_id
            (fun x => { x with available := x.available - a, held := x.held + a })) c) =
          lockedIn e.accounts c from lockedIn_update_preserve _ _ _ _ (fun x => rfl)] at h2
      exact absurd (h0.symm.trans h2) (by simp))
    (fun _ _ h2 => absurd (h0.symm.trans h2) (by simp))
    (fun _ _ _ h2 => absurd (h0.symm.trans h2) (by simp))
    (fun _ _ _ _ _ h2 => absurd (h0.symm.trans h2) (by simp))
    (fun _ _ _ _ _ _ h2 => absurd (h0.symm.trans h2) (by simp))
    (fun _ _ _ _ _ _ _ _ h2 => absurd (h0.symm.trans h2) (by simp))
    (fun dt acc a _ _ _ _ _ _ h2 => by
      rw [show (lockedIn (AList.update e.accounts dt.client_id
            (fun x => { x with held := x.held - a, available := x.available + a })) c) =
          lockedIn e.accounts c from lockedIn_update_preserve _ _ _ _ (fun x => rfl)] at h2
      exact absurd (h0.symm.trans h2) (by simp))
    (fun hty hds h2 => absurd (h0.symm.trans h2) (by simp))
    (fun _ _ _ h2 => absurd (h0.symm.trans h2) (by simp))
    (fun _ _ _ _ _ h2 => absurd (h0.symm.trans h2) (by simp))
    (fun _ _ _ _ _ _ h2 => absurd (h0.symm.trans h2) (by simp))
    (fun _ _ _ _ _ _ _ _ h2 => absurd (h0.symm.trans h2) (by simp))
    (fun dt acc a hty hds htx hcl hacc hamt h2 => ⟨hty, rfl, hds⟩)
  exact main h1

end LockedLemmas

section WellFormed

/-- Every transaction id in the open-dispute set has a record in the index. -/
def DisputesCovered (e : Engine) : Prop :=
  ∀ t, t ∈ e.disputes → AList.contains e.transactions t = true

/-- Every record in the index has an account for its client id. -/
def ClientsCovered (e : Engine) : Prop :=
  ∀ t rec, AList.find e.transactions t = some rec →
    AList.contains e.accounts rec.client_id = true

/-- Every record in the index carries a present amount. -/
def AmountsPresent (e : Engine) : Prop :=
  ∀ t rec, AList.find e.transactions t = some rec → rec.amount.isSome = true

theorem wf_step (e : Engine) (r : TransactionRecord)
    (h1 : DisputesCovered e) (h2 : ClientsCovered e) :
    DisputesCovered (processTransaction e r).1 ∧ ClientsCovered (processTransaction e r).1 := by
  apply process_cases e r (fun p => DisputesCovered p.1 ∧ ClientsCovered p.1)
  case d1 => exact fun _ _ => ⟨h1, h2⟩
  case d2 =>
      intro _ _ _ _
      exact ⟨h1, fun t rec hf => contains_entryOrNew_mono _ _ _ (h2 t rec hf)⟩
  case d3 =>
      intro _ _ _ _ _
      exact ⟨h1, fun t rec hf => contains_entryOrNew_mono _ _ _ (h2 t rec hf)⟩
  case d4 =>
      intro a _ _ _ _
      constructor
      · intro t ht
        exact contains_insert_mono _ _ _ _ (h1 t ht)
      · intro t rec hf
        show AList.contains (AList.update (entryOrNew e.accounts r.client_id) r.client_id _)
          rec.client_id = true
        rw [AList.contains_update]
        rw [AList.find_insert] at hf
        by_cases ht : t = r.transaction_id
        · rw [if_pos ht] at hf
          obtain rfl := Option.some.inj hf
          exact contains_entryOrNew_self _ _
        · rw [if_neg ht] at hf
          exact contains_entryOrNew_mono _ _ _ (h2 t rec hf)
  case w1 => exact fun _ _ => ⟨h1, h2⟩
  case w2 => exact fun _ _ _ _ => ⟨h1, h2⟩
  case w3 => exact fun _ _ _ _ _ _ => ⟨h1, h2⟩
  case w4 => exact fun _ _ _ _ _ _ _ => ⟨h1, h2⟩
  case w5 =>
      intro a acc _ _ hacc _ _ _
      constructor
      · intro t ht
        exact contains_insert_mono _ _ _ _ (h1 t ht)
      · intro t rec hf
        show AList.contains (AList.update e.accounts r.client_id _) rec.client_id = true
        rw [AList.contains_update]
        rw [AList.find_insert] at hf
        by_cases ht : t = r.transaction_id
        · rw [if_pos ht] at hf
          obtain rfl := Option.some.inj hf
          exact (AList.contains_eq_true_iff _ _).mpr ⟨acc, hacc⟩
        · rw [if_neg ht] at hf
          exact h2 t rec hf
  case w6 => exact fun _ _ _ _ _ _ _ _ => ⟨h1, h2⟩
  case s1 => exact fun _ _ => ⟨h1, h2⟩
  case s2 => exact fun _ _ _ _ => ⟨h1, h2⟩
  case s3 => exact fun _ _ _ _ _ => ⟨h1, h2⟩
  case s4 => exact fun _ _ _ _ _ _ => ⟨h1, h2⟩
  case s5 => exact fun _ _ _ _ _ _ _ _ => ⟨h1, h2⟩
  case s6 =>
      intro dt acc a _ htx _ _ _ _
      constructor
      · intro t ht
        rw [mem_setInsert] at ht
        rcases ht with ht | ht
        · subst ht
          exact (AList.contains_eq_true_iff _ _).mpr ⟨dt, htx⟩
        · exact h1 t ht
      · intro t rec hf
        show AList.contains (AList.update e.accounts dt.client_id _) rec.client_id = true
        rw [AList.contains_update]
        exact h2 t rec hf
  case r1 => exact fun _ _ => ⟨h1, h2⟩
  case r2 => exact fun _ _ _ => ⟨h1, h2⟩
  case r3 => exact fun _ _ _ _ _ => ⟨h1, h2⟩
  case r4 => exact fun _ _ _ _ _ _ => ⟨h1, h2⟩
  case r5 => exact fun _ _ _ _ _ _ _ _ => ⟨h1, h2⟩
  case r6 =>
      intro dt acc a _ _ _ _ _ _
      constructor
      · intro t ht
        rw [mem_setErase] at ht
        exact h1 t ht.1
      · intro t rec hf
        show AList.contains (AList.update e.accounts dt.client_id _) rec.client_id = true
        rw [AList.contains_update]
        exact h2 t rec hf
  case c1 => exact fun _ _ => ⟨h1, h2⟩
  case c2 => exact fun _ _ _ => ⟨h1, h2⟩
  case c3 => exact fun _ _ _ _ _ => ⟨h1, h2⟩
  case c4 => exact fun _ _ _ _ _ _ => ⟨h1, h2⟩
  case c5 => exact fun _ _ _ _ _ _ _ _ => ⟨h1, h2⟩
  case c6 =>
      intro dt acc a _ _ _ _ _ _
      constructor
      · intro t ht
        rw [mem_setErase] at ht
        exact h1 t ht.1
      · intro t rec hf
        show AList.contains (AList.update e.accounts dt.client_id _) rec.client_id = true
        rw [AList.contains_update]
        exact h2 t rec hf

theorem wf_run (rs : List TransactionRecord) :
    DisputesCovered (run Engine.new rs) ∧ ClientsCovered (run Engine.new rs) := by
  refine run_preserves (fun e => DisputesCovered e ∧ ClientsCovered e) ?_ rs Engine.new ?_
  · exact fun e r he => wf_step e r he.1 he.2
  · constructor
    · intro t ht
      cases ht
    · intro t rec hf
      cases hf

/-- Given the two coverage invariants, no structural-error branch is
reachable: the call returns Ok. -/
theorem wf_no_error (e : Engine) (r : TransactionRecord)
    (h1 : DisputesCovered e) (h2 : ClientsCovered e) :
    (processTransaction e r).2 = Except.ok () := by
  apply process_cases e r (fun p => p.2 = Except.ok ())
  case d1 => exact fun _ _ => rfl
  case d2 => exact fun _ _ _ _ => rfl
  case d3 => exact fun _ _ _ _ _ => rfl
  case d4 => exact fun _ _ _ _ _ => rfl
  case w1 => exact fun _ _ => rfl
  case w2 => exact fun _ _ _ _ => rfl
  case w3 => exact fun _ _ _ _ _ _ => rfl
  case w4 => exact fun _ _ _ _ _ _ _ => rfl
  case w5 => exact fun _ _ _ _ _ _ _ _ => rfl
  case w6 => exact fun _ _ _ _ _ _ _ _ => rfl
  case s1 => exact fun _ _ => rfl
  case s2 => exact fun _ _ _ _ => rfl
  case s3 => exact fun _ _ _ _ _ => rfl
  case s4 =>
      intro dt _ htx _ _ hacc
      obtain ⟨v, hv⟩ := (AList.contains_eq_true_iff _ _).mp (h2 _ dt htx)
      exact absurd (hacc.symm.trans hv) (by simp)
  case s5 => exact fun _ _ _ _ _ _ _ _ => rfl
  case s6 => exact fun _ _ _ _ _ _ _ _ _ => rfl
  case r1 => exact fun _ _ => rfl
  case r2 =>
      intro _ hds htx
      have hmem : r.transaction_id ∈ e.disputes := by simpa using hds
      obtain ⟨v, hv⟩ := (AList.contains_eq_true_iff _ _).mp (h1 _ hmem)
      exact absurd (htx.symm.trans hv) (by simp)
  case r3 => exact fun _ _ _ _ _ => rfl
  case r4 =>
      intro dt _ _ htx _ hacc
      obtain ⟨v, hv⟩ := (AList.contains_eq_true_iff _ _).mp (h2 _ dt htx)
      exact absurd (hacc.symm.trans hv) (by simp)
  case r5 => exact fun _ _ _ _ _ _ _ _ => rfl
  case r6 => exact fun _ _ _ _ _ _ _ _ _ => rfl
  case c1 => exact fun _ _ => rfl
  case c2 =>
      intro _ hds htx
      have hmem : r.transaction_id ∈ e.disputes := by simpa using hds
      obtain ⟨v, hv⟩ := (AList.contains_eq_true_iff _ _).mp (h1 _ hmem)
      exact absurd (htx.symm.trans hv) (by simp)
  case c3 => exact fun _ _ _ _ _ => rfl
  case c4 =>
      intro dt _ _ htx _ hacc
      obtain ⟨v, hv⟩ := (AList.contains_eq_true_iff _ _).mp (h2 _ dt htx)
      exact absurd (hacc.symm.trans hv) (by simp)
  case c5 => exact fun _ _ _ _ _ _ _ _ => rfl
  case c6 => exact fun _ _ _ _ _ _ _ _ _ => rfl

theorem amounts_step (e : Engine) (r : TransactionRecord)
    (h : AmountsPresent e) : AmountsPresent (processTransaction e r).1 := by
  apply process_cases e r (fun p => AmountsPresent p.1)
  case d1 => exact fun _ _ => h
  case d2 => exact fun _ _ _ _ => h
  case d3 => exact fun _ _ _ _ _ => h
  case d4 =>
      intro a _ hamt _ _
      intro t rec hf
      show rec.amount.isSome = true
      rw [AList.find_insert] at hf
      by_cases ht : t = r.transaction_id
      · rw [if_pos ht] at hf
        obtain rfl := Option.some.inj hf
        rw [hamt]
        rfl
      · rw [if_neg ht] at hf
        exact h t rec hf
  case w1 => exact fun _ _ => h
  case w2 => exact fun _ _ _ _ => h
  case w3 => exact fun _ _ _ _ _ _ => h
  case w4 => exact fun _ _ _ _ _ _ _ => h
  case w5 =>
      intro a acc _ hamt _ _ _ _
      intro t rec hf
      show rec.amount.isSome = true
      rw [AList.find_insert] at hf
      by_cases ht : t = r.transaction_id
      · rw [if_pos ht] at hf
        obtain rfl := Option.some.inj hf
        rw [hamt]
        rfl
      · rw [if_neg ht] at hf
        exact h t rec hf
  case w6 => exact fun _ _ _ _ _ _ _ _ => h
  case s1 => exact fun _ _ => h
  case s2 => exact fun _ _ _ _ => h
  case s3 => exact fun _ _ _ _ _ => h
  case s4 => exact fun _ _ _ _ _ _ => h
  case s5 => exact fun _ _ _ _ _ _ _ _ => h
  case s6 => exact fun _ _ _ _ _ _ _ _ _ => h
  case r1 => exact fun _ _ => h
  case r2 => exact fun _ _ _ => h
  case r3 => exact fun _ _ _ _ _ => h
  case r4 => exact fun _ _ _ _ _ _ => h
  case r5 => exact fun _ _ _ _ _ _ _ _ => h
  case r6 => exact fun _ _ _ _ _ _ _ _ _ => h
  case c1 => exact fun _ _ => h
  case c2 => exact fun _ _ _ => h
  case c3 => exact fun _ _ _ _ _ => h
  case c4 => exact fun _ _ _ _ _ _ => h
  case c5 => exact fun _ _ _ _ _ _ _ _ => h
  case c6 => exact fun _ _ _ _ _ _ _ _ _ => h

theorem amounts_run (rs : List TransactionRecord) :
    AmountsPresent (run Engine.new rs) := by
  refine run_preserves AmountsPresent (fun e r he => amounts_step e r he) rs Engine.new ?_
  intro t rec hf
  cases hf

end WellFormed

section ApplyShapes

/-- A dispute that passes all gates performs exactly the held/available move
and marks the id disputed. -/
theorem dispute_apply_eq (e : Engine) (r dt : TransactionRecord) (a : Int)
    (hty : r.transaction_type = .dispute)
    (htx : AList.find e.transactions r.transaction_id = some dt)
    (hds : e.disputes.contains r.transaction_id = false)
    (hcl : r.client_id = dt.client_id)
    (hacc : AList.contains e.accounts dt.client_id = true)
    (hamt : dt.amount = some a) :
    processTransaction e r =
      ({ e with
          accounts := AList.update e.accounts dt.client_id
            (fun x => { x with available := x.available - a, held := x.held + a }),
          disputes := setInsert e.disputes r.transaction_id }, Except.ok ()) := by
  apply process_cases e r (fun p => p =
      ({ e with
          accounts := AList.update e.accounts dt.client_id
            (fun x => { x with available := x.available - a, held := x.held + a }),
          disputes := setInsert e.disputes r.transaction_id }, Except.ok ()))
  case d1 => intro h2 _; exact absurd (hty.symm.trans h2) (by simp)
  case d2 => intro _ h2 _ _; exact absurd (hty.symm.trans h2) (by simp)
  case d3 => intro _ h2 _ _ _; exact absurd (hty.symm.trans h2) (by simp)
  case d4 => intro _ h2 _ _ _; exact absurd (hty.symm.trans h2) (by simp)
  case w1 => intro h2 _; exact absurd (hty.symm.trans h2) (by simp)
  case w2 => intro _ h2 _ _; exact absurd (hty.symm.trans h2) (by simp)
  case w3 => intro _ _ h2 _ _ _; exact absurd (hty.symm.trans h2) (by simp)
  case w4 => intro _ _ h2 _ _ _ _; exact absurd (hty.symm.trans h2) (by simp)
  case w5 => intro _ _ h2 _ _ _ _ _; exact absurd (hty.symm.trans h2) (by simp)
  case w6 => intro _ _ h2 _ _ _ _ _; exact absurd (hty.symm.trans h2) (by simp)
  case s1 => intro _ h2; exact absurd (htx.symm.trans h2) (by simp)
  case s2 => intro _ _ _ h2; exact absurd (hds.symm.trans h2) (by simp)
  case s3 =>
      intro dt2 _ htx2 _ h2
      obtain rfl := Option.some.inj (htx.symm.trans htx2)
      exact absurd hcl h2
  case s4 =>
      intro dt2 _ htx2 _ _ hacc2
      obtain rfl := Option.some.inj (htx.symm.trans htx2)
      obtain ⟨v, hv⟩ := (AList.contains_eq_true_iff _ _).mp hacc
      exact absurd (hacc2.symm.trans hv) (by simp)
  case s5 =>
      intro dt2 _ _ htx2 _ _ _ hamt2
      obtain rfl := Option.some.inj (htx.symm.trans htx2)
      exact absurd (hamt.symm.trans hamt2) (by simp)
  case s6 =>
      intro dt2 acc2 a2 _ htx2 _ _ _ hamt2
      obtain rfl := Option.some.inj (htx.symm.trans htx2)
      obtain rfl := Option.some.inj (hamt.symm.trans hamt2)
      rfl
  case r1 => intro h2 _; exact absurd (hty.symm.trans h2) (by simp)
  case r2 => intro h2 _ _; exact absurd (hty.symm.trans h2) (by simp)
  case r3 => intro _ h2 _ _ _; exact absurd (hty.symm.trans h2) (by simp)
  case r4 => intro _ h2 _ _ _ _; exact absurd (hty.symm.trans h2) (by simp)
  case r5 => intro _ _ h2 _ _ _ _ _; exact absurd (hty.symm.trans h2) (by simp)
  case r6 => intro _ _ _ h2 _ _ _ _ _; exact absurd (hty.symm.trans h2) (by simp)
  case c1 => intro h2 _; exact absurd (hty.symm.trans h2) (by simp)
  case c2 => intro h2 _ _; exact absurd (hty.symm.trans h2) (by simp)
  case c3 => intro _ h2 _ _ _; exact absurd (hty.symm.trans h2) (by simp)
  case c4 => intro _ h2 _ _ _ _; exact absurd (hty.symm.trans h2) (by simp)
  case c5 => intro _ _ h2 _ _ _ _ _; exact absurd (hty.symm.trans h2) (by simp)
  case c6 => intro _ _ _ h2 _ _ _ _ _; exact absurd (hty.symm.trans h2) (by simp)

/-- A resolve that passes all gates performs exactly the inverse move and
clears the id from the open-dispute set. -/
theorem resolve_apply_eq (e : Engine) (r dt : TransactionRecord) (a : Int)
    (hty : r.transaction_type = .resolve)
    (hds : e.disputes.contains r.transaction_id = true)
    (htx : AList.find e.transactions r.transaction_id = some dt)
    (hcl : r.client_id = dt.client_id)
    (hacc : AList.contains e.accounts dt.client_id = true)
    (hamt : dt.amount = some a) :
    processTransaction e r =
      ({ e with
          accounts := AList.update e.accounts dt.client_id
            (fun x => { x with held := x.held - a, available := x.available + a }),
          disputes := setErase e.disputes r.transaction_id }, Except.ok ()) := by
  apply process_cases e r (fun p => p =
      ({ e with
          accounts := AList.update e.accounts dt.client_id
            (fun x => { x with held := x.held - a, available := x.available + a }),
          disputes := setErase e.disputes r.transaction_id }, Except.ok ()))
  case d1 => intro h2 _; exact absurd (hty.symm.trans h2) (by simp)
  case d2 => intro _ h2 _ _; exact absurd (hty.symm.trans h2) (by simp)
  case d3 => intro _ h2 _ _ _; exact absurd (hty.symm.trans h2) (by simp)
  case d4 => intro _ h2 _ _ _; exact absurd (hty.symm.trans h2) (by simp)
  case w1 => intro h2 _; exact absurd (hty.symm.trans h2) (by simp)
  case w2 => intro _ h2 _ _; exact absurd (hty.symm.trans h2) (by simp)
  case w3 => intro _ _ h2 _ _ _; exact absurd (hty.symm.trans h2) (by simp)
  case w4 => intro _ _ h2 _ _ _ _; exact absurd (hty.symm.trans h2) (by simp)
  case w5 => intro _ _ h2 _ _ _ _ _; exact absurd (hty.symm.trans h2) (by simp)
  case w6 => intro _ _ h2 _ _ _ _ _; exact absurd (hty.symm.trans h2) (by simp)
  case s1 => intro h2 _; exact absurd (hty.symm.trans h2) (by simp)
  case s2 => intro _ h2 _ _; exact absurd (hty.symm.trans h2) (by simp)
  case s3 => intro _ h2 _ _ _; exact absurd (hty.symm.trans h2) (by simp)
  case s4 => intro _ h2 _ _ _ _; exact absurd (hty.symm.trans h2) (by simp)
  case s5 => intro _ _ h2 _ _ _ _ _; exact absurd (hty.symm.trans h2) (by simp)
  case s6 => intro _ _ _ h2 _ _ _ _ _; exact absurd (hty.symm.trans h2) (by simp)
  case r1 => intro _ h2; exact absurd (hds.symm.trans h2) (by simp)
  case r2 => intro _ _ h2; exact absurd (htx.symm.trans h2) (by simp)
  case r3 =>
      intro dt2 _ _ htx2 h2
      obtain rfl := Option.some.inj (htx.symm.trans htx2)
      exact absurd hcl h2
  case r4 =>
      intro dt2 _ _ htx2 _ hacc2
      obtain rfl := Option.some.inj (htx.symm.trans htx2)
      obtain ⟨v, hv⟩ := (AList.contains_eq_true_iff _ _).mp hacc
      exact absurd (hacc2.symm.trans hv) (by simp)
  case r5 =>
      intro dt2 _ _ _ htx2 _ _ hamt2
      obtain rfl := Option.some.inj (htx.symm.trans htx2)
      exact absurd (hamt.symm.trans hamt2) (by simp)
  case r6 =>
      intro dt2 acc2 a2 _ _ htx2 _ _ hamt2
      obtain rfl := Option.some.inj (htx.symm.trans htx2)
      obtain rfl := Option.some.inj (hamt.symm.trans hamt2)
      rfl
  case c1 => intro h2 _; exact absurd (hty.symm.trans h2) (by simp)
  case c2 => intro h2 _ _; exact absurd (hty.symm.trans h2) (by simp)
  case c3 => intro _ h2 _ _ _; exact absurd (hty.symm.trans h2) (by simp)
  case c4 => intro _ h2 _ _ _ _; exact absurd (hty.symm.trans h2) (by simp)
  case c5 => intro _ _ h2 _ _ _ _ _; exact absurd (hty.symm.trans h2) (by simp)
  case c6 => intro _ _ _ h2 _ _ _ _ _; exact absurd (hty.symm.trans h2) (by simp)

/-- A chargeback that passes all gates removes the held funds from the total,
locks the account and clears the dispute. -/
theorem chargeback_apply_eq (e : Engine) (r dt : TransactionRecord) (a : Int)
    (hty : r.transaction_type = .chargeback)
    (hds : e.disputes.contains r.transaction_id = true)
    (htx : AList.find e.transactions r.transaction_id = some dt)
    (hcl : r.client_id = dt.client_id)
    (hacc : AList.contains e.accounts dt.client_id = true)
    (hamt : dt.amount = some a) :
    processTransaction e r =
      ({ e with
          accounts := AList.update e.accounts dt.client_id
            (fun x => { x with held := x.held - a, total := x.total - a, locked := true }),
          disputes := setErase e.disputes r.transaction_id }, Except.ok ()) := by
  apply process_cases e r (fun p => p =
      ({ e with
          accounts := AList.update e.accounts dt.client_id
            (fun x => { x with held := x.held - a, total := x.total - a, locked := true }),
          disputes := setErase e.disputes r.transaction_id }, Except.ok ()))
  case d1 => intro h2 _; exact absurd (hty.symm.trans h2) (by simp)
  case d2 => intro _ h2 _ _; exact absurd (hty.symm.trans h2) (by simp)
  case d3 => intro _ h2 _ _ _; exact absurd (hty.symm.trans h2) (by simp)
  case d4 => intro _ h2 _ _ _; exact absurd (hty.symm.trans h2) (by simp)
  case w1 => intro h2 _; exact absurd (hty.symm.trans h2) (by simp)
  case w2 => intro _ h2 _ _; exact absurd (hty.symm.trans h2) (by simp)
  case w3 => intro _ _ h2 _ _ _; exact absurd (hty.symm.trans h2) (by simp)
  case w4 => intro _ _ h2 _ _ _ _; exact absurd (hty.symm.trans h2) (by simp)
  case w5 => intro _ _ h2 _ _ _ _ _; exact absurd (hty.symm.trans h2) (by simp)
  case w6 => intro _ _ h2 _ _ _ _ _; exact absurd (hty.symm.trans h2) (by simp)
  case s1 => intro h2 _; exact absurd (hty.symm.trans h2) (by simp)
  case s2 => intro _ h2 _ _; exact absurd (hty.symm.trans h2) (by simp)
  case s3 => intro _ h2 _ _ _; exact absurd (hty.symm.trans h2) (by simp)
  case s4 => intro _ h2 _ _ _ _; exact absurd (hty.symm.trans h2) (by simp)
  case s5 => intro _ _ h2 _ _ _ _ _; exact absurd (hty.symm.trans h2) (by simp)
  case s6 => intro _ _ _ h2 _ _ _ _ _; exact absurd (hty.symm.trans h2) (by simp)
  case r1 => intro h2 _; exact absurd (hty.symm.trans h2) (by simp)
  case r2 => intro h2 _ _; exact absurd (hty.symm.trans h2) (by simp)
  case r3 => intro _ h2 _ _ _; exact absurd (hty.symm.trans h2) (by simp)
  case r4 => intro _ h2 _ _ _ _; exact absurd (hty.symm.trans h2) (by simp)
  case r5 => intro _ _ h2 _ _ _ _ _; exact absurd (hty.symm.trans h2) (by simp)
  case r6 => intro _ _ _ h2 _ _ _ _ _; exact absurd (hty.symm.trans h2) (by simp)
  case c1 => intro _ h2; exact absurd (hds.symm.trans h2) (by simp)
  case c2 => intro _ _ h2; exact absurd (htx.symm.trans h2) (by simp)
  case c3 =>
      intro dt2 _ _ htx2 h2
      obtain rfl := Option.some.inj (htx.symm.trans htx2)
      exact absurd hcl h2
  case c4 =>
      intro dt2 _ _ htx2 _ hacc2
      obtain rfl := Option.some.inj (htx.symm.trans htx2)
      obtain ⟨v, hv⟩ := (AList.contains_eq_true_iff _ _).mp hacc
      exact absurd (hacc2.symm.trans hv) (by simp)
  case c5 =>
      intro dt2 _ _ _ htx2 _ _ hamt2
      obtain rfl := Option.some.inj (htx.symm.trans htx2)
      exact absurd (hamt.symm.trans hamt2) (by simp)
  case c6 =>
      intro dt2 acc2 a2 _ _ htx2 _ _ hamt2
      obtain rfl := Option.some.inj (htx.symm.trans htx2)
      obtain rfl := Option.some.inj (hamt.symm.trans hamt2)
      rfl

/-- A withdrawal on an existing unlocked account with a fresh id and
sufficient available funds applies exactly. -/
theorem withdrawal_apply_eq (e : Engine) (r : TransactionRecord) (a : Int) (acc : Account)
    (hty : r.transaction_type = .withdrawal)
    (hamt : r.amount = some a)
    (hacc : AList.find e.accounts r.client_id = some acc)
    (hl : acc.locked = false)
    (hu : AList.contains e.transactions r.transaction_id = false)
    (hle : a ≤ acc.available) :
    processTransaction e r =
      ({ e with
          accounts := AList.update e.accounts r.client_id
            (fun x => { x with available := x.available - a, total := x.total - a }),
          transactions := AList.insert e.transactions r.transaction_id r }, Except.ok ()) := by
  apply process_cases e r (fun p => p =
      ({ e with
          accounts := AList.update e.accounts r.client_id
            (fun x => { x with available := x.available - a, total := x.total - a }),
          transactions := AList.insert e.transactions r.transaction_id r }, Except.ok ()))
  case d1 => intro h2 _; exact absurd (hty.symm.trans h2) (by simp)
  case d2 => intro _ h2 _ _; exact absurd (hty.symm.trans h2) (by simp)
  case d3 => intro _ h2 _ _ _; exact absurd (hty.symm.trans h2) (by simp)
  case d4 => intro _ h2 _ _ _; exact absurd (hty.symm.trans h2) (by simp)
  case w1 => intro _ h2; exact absurd (hamt.symm.trans h2) (by simp)
  case w2 => intro _ _ _ h2; exact absurd (hacc.symm.trans h2) (by simp)
  case w3 =>
      intro a2 acc2 _ _ hacc2 h2
      obtain rfl := Option.some.inj (hacc.symm.trans hacc2)
      exact absurd (hl.symm.trans h2) (by simp)
  case w4 =>
      intro a2 acc2 _ _ _ _ h2
      exact absurd (hu.symm.trans h2) (by simp)
  case w5 =>
      intro a2 acc2 _ hamt2 hacc2 _ _ _
      obtain rfl := Option.some.inj (hamt.symm.trans hamt2)
      rfl
  case w6 =>
      intro a2 acc2 _ hamt2 hacc2 _ _ h2
      obtain rfl := Option.some.inj (hamt.symm.trans hamt2)
      obtain rfl := Option.some.inj (hacc.symm.trans hacc2)
      exact absurd hle h2
  case s1 => intro h2 _; exact absurd (hty.symm.trans h2) (by simp)
  case s2 => intro _ h2 _ _; exact absurd (hty.symm.trans h2) (by simp)
  case s3 => intro _ h2 _ _ _; exact absurd (hty.symm.trans h2) (by simp)
  case s4 => intro _ h2 _ _ _ _; exact absurd (hty.symm.trans h2) (by simp)
  case s5 => intro _ _ h2 _ _ _ _ _; exact absurd (hty.symm.trans h2) (by simp)
  case s6 => intro _ _ _ h2 _ _ _ _ _; exact absurd (hty.symm.trans h2) (by simp)
  case r1 => intro h2 _; exact absurd (hty.symm.trans h2) (by simp)
  case r2 => intro h2 _ _; exact absurd (hty.symm.trans h2) (by simp)
  case r3 => intro _ h2 _ _ _; exact absurd (hty.symm.trans h2) (by simp)
  case r4 => intro _ h2 _ _ _ _; exact absurd (hty.symm.trans h2) (by simp)
  case r5 => intro _ _ h2 _ _ _ _ _; exact absurd (hty.symm.trans h2) (by simp)
  case r6 => intro _ _ _ h2 _ _ _ _ _; exact absurd (hty.symm.trans h2) (by simp)
  case c1 => intro h2 _; exact absurd (hty.symm.trans h2) (by simp)
  case c2 => intro h2 _ _; exact absurd (hty.symm.trans h2) (by simp)
  case c3 => intro _ h2 _ _ _; exact absurd (hty.symm.trans h2) (by simp)
  case c4 => intro _ h2 _ _ _ _; exact absurd (hty.symm.trans h2) (by simp)
  case c5 => intro _ _ h2 _ _ _ _ _; exact absurd (hty.symm.trans h2) (by simp)
  case c6 => intro _ _ _ h2 _ _ _ _ _; exact absurd (hty.symm.trans h2) (by simp)

/-- A withdrawal on an existing unlocked account with a fresh id but
insufficient available funds is a pure no-op returning Ok. -/
theorem withdrawal_insufficient_eq (e : Engine) (r : TransactionRecord) (a : Int) (acc : Account)
    (hty : r.transaction_type = .withdrawal)
    (hamt : r.amount = some a)
    (hacc : AList.find e.accounts r.client_id = some acc)
    (hl : acc.locked = false)
    (hu : AList.contains e.transactions r.transaction_id = false)
    (hgt : acc.available < a) :
    processTransaction e r = (e, Except.ok ()) := by
  apply process_cases e r (fun p => p = (e, Except.ok ()))
  case d1 => intro h2 _; exact absurd (hty.symm.trans h2) (by simp)
  case d2 => intro _ h2 _ _; exact absurd (hty.symm.trans h2) (by simp)
  case d3 => intro _ h2 _ _ _; exact absurd (hty.symm.trans h2) (by simp)
  case d4 => intro _ h2 _ _ _; exact absurd (hty.symm.trans h2) (by simp)
  case w1 => intro _ h2; exact absurd (hamt.symm.trans h2) (by simp)
  case w2 => intro _ _ _ h2; exact absurd (hacc.symm.trans h2) (by simp)
  case w3 =>
      intro a2 acc2 _ _ hacc2 h2
      obtain rfl := Option.some.inj (hacc.symm.trans hacc2)
      exact absurd (hl.symm.trans h2) (by simp)
  case w4 =>
      intro a2 acc2 _ _ _ _ h2
      exact absurd (hu.symm.trans h2) (by simp)
  case w5 =>
      intro a2 acc2 _ hamt2 hacc2 _ _ hle
      obtain rfl := Option.some.inj (hamt.symm.trans hamt2)
      obtain rfl := Option.some.inj (hacc.symm.trans hacc2)
      exact absurd hle (not_le.mpr hgt)
  case w6 => intro _ _ _ _ _ _ _ _; rfl
  case s1 => intro h2 _; exact absurd (hty.symm.trans h2) (by simp)
  case s2 => intro _ h2 _ _; exact absurd (hty.symm.trans h2) (by simp)
  case s3 => intro _ h2 _ _ _; exact absurd (hty.symm.trans h2) (by simp)
  case s4 => intro _ h2 _ _ _ _; exact absurd (hty.symm.trans h2) (by simp)
  case s5 => intro _ _ h2 _ _ _ _ _; exact absurd (hty.symm.trans h2) (by simp)
  case s6 => intro _ _ _ h2 _ _ _ _ _; exact absurd (hty.symm.trans h2) (by simp)
  case r1 => intro h2 _; exact absurd (hty.symm.trans h2) (by simp)
  case r2 => intro h2 _ _; exact absurd (hty.symm.trans h2) (by simp)
  case r3 => intro _ h2 _ _ _; exact absurd (hty.symm.trans h2) (by simp)
  case r4 => intro _ h2 _ _ _ _; exact absurd (hty.symm.trans h2) (by simp)
  case r5 => intro _ _ h2 _ _ _ _ _; exact absurd (hty.symm.trans h2) (by simp)
  case r6 => intro _ _ _ h2 _ _ _ _ _; exact absurd (hty.symm.trans h2) (by simp)
  case c1 => intro h2 _; exact absurd (hty.symm.trans h2) (by simp)
  case c2 => intro h2 _ _; exact absurd (hty.symm.trans h2) (by simp)
  case c3 => intro _ h2 _ _ _; exact absurd (hty.symm.trans h2) (by simp)
  case c4 => intro _ h2 _ _ _ _; exact absurd (hty.symm.trans h2) (by simp)
  case c5 => intro _ _ h2 _ _ _ _ _; exact absurd (hty.symm.trans h2) (by simp)
  case c6 => intro _ _ _ h2 _ _ _ _ _; exact absurd (hty.symm.trans h2) (by simp)

end ApplyShapes

section SoftRejection

theorem depositAccount_eq (e : Engine) (c : Nat) :
    depositAccount e c = (AList.find e.accounts c).getD Account.new := by
  unfold depositAccount
  rw [find_entryOrNew_self]
  rfl

/-- The soft-rejection conditions of process_transaction, read off the guards
of src/engine.rs in code order: missing amount, locked account, reused
transaction id, unknown account, insufficient funds, unknown or already
disputed dispute target, not-currently-disputed resolve/chargeback target,
and client-id mismatch. -/
def softRejected (e : Engine) (r : TransactionRecord) : Bool :=
  match r.transaction_type with
  | .deposit =>
    match r.amount with
    | none => true
    | some _ =>
      (depositAccount e r.client_id).locked || AList.contains e.transactions r.transaction_id
  | .withdrawal =>
    match r.amount with
    | none => true
    | some a =>
      match AList.find e.accounts r.client_id with
      | none => true
      | some acc =>
        acc.locked || AList.contains e.transactions r.transaction_id ||
          decide (acc.available < a)
  | .dispute =>
    match AList.find e.transactions r.transaction_id with
    | none => true
    | some dt =>
      e.disputes.contains r.transaction_id || decide (r.client_id ≠ dt.client_id)
  | .resolve =>
    if e.disputes.contains r.transaction_id then
      match AList.find e.transactions r.transaction_id with
      | none => false
      | some dt => decide (r.client_id ≠ dt.client_id)
    else true
  | .chargeback =>
    if e.disputes.contains r.transaction_id then
      match AList.find e.transactions r.transaction_id with
      | none => false
      | some dt => decide (r.client_id ≠ dt.client_id)
    else true

end SoftRejection

section Claims

/-- C1: for every sequence of transaction records applied via
process_transaction to a freshly constructed Engine, after every call (every
sequence is some prefix extended by one call, and all sequences are
quantified), every account in the accounts map satisfies
total = available + held. -/
theorem claim_c1_balance_invariant (rs : List TransactionRecord) (c : Nat) (a : Account)
    (h : AList.find (run Engine.new rs).accounts c = some a) :
    a.total = a.available + a.held := by
  refine balanced_run rs Engine.new ?_ c a h
  intro c2 a2 hf
  cases hf

theorem claim_c1_balance_invariant_witness :
    ({ available := 5, held := 0, total := 5, locked := false } : Account).total =
      ({ available := 5, held := 0, total := 5, locked := false } : Account).available +
      ({ available := 5, held := 0, total := 5, locked := false } : Account).held :=
  claim_c1_balance_invariant [⟨.deposit, 1, 1, some 5⟩] 1
    { available := 5, held := 0, total := 5, locked := false } (by decide)

/-- C2 counterexample: a deposit soft-rejected for an already-used transaction
id (client 2 reusing id 1) returns Ok without applying the record, yet the
accounts map is not exactly equal to the one before the call: a fresh
zero-balance account for client 2 has been created by the entry call that
precedes the already-used check. -/
theorem claim_c2_counterexample :
    softRejected (run Engine.new [⟨.deposit, 1, 1, some 5⟩]) ⟨.deposit, 2, 1, some 3⟩ = true ∧
    (processTransaction (run Engine.new [⟨.deposit, 1, 1, some 5⟩])
        ⟨.deposit, 2, 1, some 3⟩).2 = Except.ok () ∧
    (processTransaction (run Engine.new [⟨.deposit, 1, 1, some 5⟩])
        ⟨.deposit, 2, 1, some 3⟩).1.transactions =
      (run Engine.new [⟨.deposit, 1, 1, some 5⟩]).transactions ∧
    AList.find (run Engine.new [⟨.deposit, 1, 1, some 5⟩]).accounts 2 = none ∧
    AList.find (processTransaction (run Engine.new [⟨.deposit, 1, 1, some 5⟩])
        ⟨.deposit, 2, 1, some 3⟩).1.accounts 2 = some Account.new := by
  decide

/-- C2 (amended): a soft-rejected record returns Ok and leaves the transaction
index and dispute set unchanged; the accounts map is also unchanged, except
that a Deposit soft-rejected for an already-used transaction id whose client
had no account yet has already created that client's fresh zero account (the
entry call precedes the already-used check). -/
theorem claim_c2_soft_reject_state (e : Engine) (r : TransactionRecord)
    (h : softRejected e r = true) :
    (processTransaction e r).2 = Except.ok () ∧
    (processTransaction e r).1.transactions = e.transactions ∧
    (processTransaction e r).1.disputes = e.disputes ∧
    ((processTransaction e r).1.accounts = e.accounts ∨
      (r.transaction_type = .deposit ∧
        AList.contains e.accounts r.client_id = false ∧
        AList.contains e.transactions r.transaction_id = true ∧
        (processTransaction e r).1.accounts =
          AList.insert e.accounts r.client_id Account.new)) := by
  apply process_cases e r (fun p =>
    p.2 = Except.ok () ∧
    p.1.transactions = e.transactions ∧
    p.1.disputes = e.disputes ∧
    (p.1.accounts = e.accounts ∨
      (r.transaction_type = .deposit ∧
        AList.contains e.accounts r.client_id = false ∧
        AList.contains e.transactions r.transaction_id = true ∧
        p.1.accounts = AList.insert e.accounts r.client_id Account.new)))
  case d1 => exact fun _ _ => ⟨rfl, rfl, rfl, Or.inl rfl⟩
  case d2 =>
      intro a hty2 hamt2 hl2
      refine ⟨rfl, rfl, rfl, ?_⟩
      by_cases hc : AList.contains e.accounts r.client_id = true
      · exact Or.inl (entryOrNew_of_contains _ _ hc)
      · exfalso
        have hc2 : AList.contains e.accounts r.client_id = false := by
          revert hc
          cases AList.contains e.accounts r.client_id <;> simp
        rw [depositAccount_eq, (AList.contains_eq_false_iff _ _).mp hc2] at hl2
        exact absurd hl2 (by decide)
  case d3 =>
      intro a hty2 hamt2 hl2 hu2
      refine ⟨rfl, rfl, rfl, ?_⟩
      by_cases hc : AList.contains e.accounts r.client_id = true
      · exact Or.inl (entryOrNew_of_contains _ _ hc)
      · have hc2 : AList.contains e.accounts r.client_id = false := by
          revert hc
          cases AList.contains e.accounts r.client_id <;> simp
        refine Or.inr ⟨hty2, hc2, hu2, ?_⟩
        show entryOrNew e.accounts r.client_id = AList.insert e.accounts r.client_id Account.new
        simp [entryOrNew, hc2]
  case d4 =>
      intro a hty2 hamt2 hl2 hu2
      exfalso
      simp [softRejected, hty2, hamt2, hl2, hu2] at h
  case w1 => exact fun _ _ => ⟨rfl, rfl, rfl, Or.inl rfl⟩
  case w2 => exact fun _ _ _ _ => ⟨rfl, rfl, rfl, Or.inl rfl⟩
  case w3 => exact fun _ _ _ _ _ _ => ⟨rfl, rfl, rfl, Or.inl rfl⟩
  case w4 => exact fun _ _ _ _ _ _ _ => ⟨rfl, rfl, rfl, Or.inl rfl⟩
  case w5 =>
      intro a acc hty2 hamt2 hacc2 hl2 hu2 hle
      exfalso
      simp [softRejected, hty2, hamt2, hacc2, hl2, hu2] at h
      exact absurd h (not_lt.mpr hle)
  case w6 => exact fun _ _ _ _ _ _ _ _ => ⟨rfl, rfl, rfl, Or.inl rfl⟩
  case s1 => exact fun _ _ => ⟨rfl, rfl, rfl, Or.inl rfl⟩
  case s2 => exact fun _ _ _ _ => ⟨rfl, rfl, rfl, Or.inl rfl⟩
  case s3 => exact fun _ _ _ _ _ => ⟨rfl, rfl, rfl, Or.inl rfl⟩
  case s4 =>
      intro dt hty2 htx2 hds2 hcl2 hacc2
      exfalso
      simp [softRejected, hty2, htx2, hcl2] at h
      exact absurd h (by simpa using hds2)
  case s5 => exact fun _ _ _ _ _ _ _ _ => ⟨rfl, rfl, rfl, Or.inl rfl⟩
  case s6 =>
      intro dt acc a hty2 htx2 hds2 hcl2 hacc2 hamt2
      exfalso
      simp [softRejected, hty2, htx2, hcl2] at h
      exact absurd h (by simpa using hds2)
  case r1 => exact fun _ _ => ⟨rfl, rfl, rfl, Or.inl rfl⟩
  case r2 =>
      intro hty2 hds2 htx2
      exfalso
      simp [softRejected, hty2, htx2] at h
      exact h (by simpa using hds2)
  case r3 => exact fun _ _ _ _ _ => ⟨rfl, rfl, rfl, Or.inl rfl⟩
  case r4 =>
      intro dt hty2 hds2 htx2 hcl2 hacc2
      exfalso
      simp [softRejected, hty2, htx2, hcl2] at h
      exact h (by simpa using hds2)
  case r5 => exact fun _ _ _ _ _ _ _ _ => ⟨rfl, rfl, rfl, Or.inl rfl⟩
  case r6 =>
      intro dt acc a hty2 hds2 htx2 hcl2 hacc2 hamt2
      exfalso
      simp [softRejected, hty2, htx2, hcl2] at h
      exact h (by simpa using hds2)
  case c1 => exact fun _ _ => ⟨rfl, rfl, rfl, Or.inl rfl⟩
  case c2 =>
      intro hty2 hds2 htx2
      exfalso
      simp [softRejected, hty2, htx2] at h
      exact h (by simpa using hds2)
  case c3 => exact fun _ _ _ _ _ => ⟨rfl, rfl, rfl, Or.inl rfl⟩
  case c4 =>
      intro dt hty2 hds2 htx2 hcl2 hacc2
      exfalso
      simp [softRejected, hty2, htx2, hcl2] at h
      exact h (by simpa using hds2)
  case c5 => exact fun _ _ _ _ _ _ _ _ => ⟨rfl, rfl, rfl, Or.inl rfl⟩
  case c6 =>
      intro dt acc a hty2 hds2 htx2 hcl2 hacc2 hamt2
      exfalso
      simp [softRejected, hty2, htx2, hcl2] at h
      exact h (by simpa using hds2)

theorem claim_c2_soft_reject_state_witness :
    (processTransaction (run Engine.new [⟨.deposit, 1, 1, some 5⟩])
        ⟨.deposit, 1, 1, some 3⟩).2 = Except.ok () ∧
    (processTransaction (run Engine.new [⟨.deposit, 1, 1, some 5⟩])
        ⟨.deposit, 1, 1, some 3⟩).1.transactions =
      (run Engine.new [⟨.deposit, 1, 1, some 5⟩]).transactions ∧
    (processTransaction (run Engine.new [⟨.deposit, 1, 1, some 5⟩])
        ⟨.deposit, 1, 1, some 3⟩).1.disputes =
      (run Engine.new [⟨.deposit, 1, 1, some 5⟩]).disputes ∧
    ((processTransaction (run Engine.new [⟨.deposit, 1, 1, some 5⟩])
        ⟨.deposit, 1, 1, some 3⟩).1.accounts =
      (run Engine.new [⟨.deposit, 1, 1, some 5⟩]).accounts ∨
      ((⟨.deposit, 1, 1, some 3⟩ : TransactionRecord).transaction_type = .deposit ∧
        AList.contains (run Engine.new [⟨.deposit, 1, 1, some 5⟩]).accounts 1 = false ∧
        AList.contains (run Engine.new [⟨.deposit, 1, 1, some 5⟩]).transactions 1 = true ∧
        (processTransaction (run Engine.new [⟨.deposit, 1, 1, some 5⟩])
            ⟨.deposit, 1, 1, some 3⟩).1.accounts =
          AList.insert (run Engine.new [⟨.deposit, 1, 1, some 5⟩]).accounts 1 Account.new)) :=
  claim_c2_soft_reject_state (run Engine.new [⟨.deposit, 1, 1, some 5⟩])
    ⟨.deposit, 1, 1, some 3⟩ (by decide)

/-- C3: process_transaction returns an Err only when the referenced
transaction id is known to be disputed but has no record in the transaction
index, or when the referenced transaction is present in the index but its
client has no account; contrapositively it returns Ok in every other case. -/
theorem claim_c3_structural_error_conditions (e : Engine) (r : TransactionRecord)
    (h : (processTransaction e r).2 ≠ Except.ok ()) :
    (e.disputes.contains r.transaction_id = true ∧
      AList.contains e.transactions r.transaction_id = false) ∨
    (∃ dt, AList.find e.transactions r.transaction_id = some dt ∧
      AList.contains e.accounts dt.client_id = false) := by
  revert h
  apply process_cases e r (fun p =>
    p.2 ≠ Except.ok () →
    (e.disputes.contains r.transaction_id = true ∧
      AList.contains e.transactions r.transaction_id = false) ∨
    (∃ dt, AList.find e.transactions r.transaction_id = some dt ∧
      AList.contains e.accounts dt.client_id = false))
  case d1 => exact fun _ _ h2 => absurd rfl h2
  case d2 => exact fun _ _ _ _ h2 => absurd rfl h2
  case d3 => exact fun _ _ _ _ _ h2 => absurd rfl h2
  case d4 => exact fun _ _ _ _ _ h2 => absurd rfl h2
  case w1 => exact fun _ _ h2 => absurd rfl h2
  case w2 => exact fun _ _ _ _ h2 => absurd rfl h2
  case w3 => exact fun _ _ _ _ _ _ h2 => absurd rfl h2
  case w4 => exact fun _ _ _ _ _ _ _ h2 => absurd rfl h2
  case w5 => exact fun _ _ _ _ _ _ _ _ h2 => absurd rfl h2
  case w6 => exact fun _ _ _ _ _ _ _ _ h2 => absurd rfl h2
  case s1 => exact fun _ _ h2 => absurd rfl h2
  case s2 => exact fun _ _ _ _ h2 => absurd rfl h2
  case s3 => exact fun _ _ _ _ _ h2 => absurd rfl h2
  case s4 =>
      intro dt _ htx2 _ _ hacc2 _
      exact Or.inr ⟨dt, htx2, (AList.contains_eq_false_iff _ _).mpr hacc2⟩
  case s5 => exact fun _ _ _ _ _ _ _ _ h2 => absurd rfl h2
  case s6 => exact fun _ _ _ _ _ _ _ _ _ h2 => absurd rfl h2
  case r1 => exact fun _ _ h2 => absurd rfl h2
  case r2 =>
      intro _ hds2 htx2 _
      exact Or.inl ⟨hds2, (AList.contains_eq_false_iff _ _).mpr htx2⟩
  case r3 => exact fun _ _ _ _ _ h2 => absurd rfl h2
  case r4 =>
      intro dt _ _ htx2 _ hacc2 _
      exact Or.inr ⟨dt, htx2, (AList.contains_eq_false_iff _ _).mpr hacc2⟩
  case r5 => exact fun _ _ _ _ _ _ _ _ h2 => absurd rfl h2
  case r6 => exact fun _ _ _ _ _ _ _ _ _ h2 => absurd rfl h2
  case c1 => exact fun _ _ h2 => absurd rfl h2
  case c2 =>
      intro _ hds2 htx2 _
      exact Or.inl ⟨hds2, (AList.contains_eq_false_iff _ _).mpr htx2⟩
  case c3 => exact fun _ _ _ _ _ h2 => absurd rfl h2
  case c4 =>
      intro dt _ _ htx2 _ hacc2 _
      exact Or.inr ⟨dt, htx2, (AList.contains_eq_false_iff _ _).mpr hacc2⟩
  case c5 => exact fun _ _ _ _ _ _ _ _ h2 => absurd rfl h2
  case c6 => exact fun _ _ _ _ _ _ _ _ _ h2 => absurd rfl h2

theorem claim_c3_structural_error_conditions_witness :
    (((⟨[], [(1, ⟨.deposit, 1, 1, some 5⟩)], []⟩ : Engine).disputes.contains 1 = true ∧
      AList.contains (⟨[], [(1, ⟨.deposit, 1, 1, some 5⟩)], []⟩ : Engine).transactions 1 = false) ∨
    (∃ dt, AList.find (⟨[], [(1, ⟨.deposit, 1, 1, some 5⟩)], []⟩ : Engine).transactions 1 =
        some dt ∧
      AList.contains (⟨[], [(1, ⟨.deposit, 1, 1, some 5⟩)], []⟩ : Engine).accounts
        dt.client_id = false)) :=
  claim_c3_structural_error_conditions ⟨[], [(1, ⟨.deposit, 1, 1, some 5⟩)], []⟩
    ⟨.dispute, 1, 1, none⟩ (by decide)

theorem setInsert_contains_self (l : List Nat) (t : Nat) :
    (setInsert l t).contains t = true := by
  have hm : t ∈ setInsert l t := (mem_setInsert l t t).mpr (Or.inl rfl)
  simpa using hm

/-- C4: the locked flag is monotone over any sequence of calls (once true it
stays true), and a call that flips it from false to true is a chargeback that
passed its gates — the referenced id was under dispute — and returned Ok. -/
theorem claim_c4_locked_monotone (e : Engine) (c : Nat)
    (rs : List TransactionRecord) (r : TransactionRecord) :
    (lockedIn e.accounts c = true → lockedIn (run e rs).accounts c = true) ∧
    (lockedIn e.accounts c = false →
      lockedIn (processTransaction e r).1.accounts c = true →
      r.transaction_type = .chargeback ∧ (processTransaction e r).2 = Except.ok () ∧
        e.disputes.contains r.transaction_id = true) :=
  ⟨fun h => locked_mono_run e rs c h, fun h0 h1 => locked_flip_step e r c h0 h1⟩

theorem claim_c4_locked_monotone_witness :
    lockedIn (run (run Engine.new [⟨.deposit, 2, 5, some 8⟩, ⟨.dispute, 2, 5, none⟩,
        ⟨.chargeback, 2, 5, none⟩]) [⟨.deposit, 2, 6, some 3⟩]).accounts 2 = true ∧
    ((⟨.chargeback, 2, 5, none⟩ : TransactionRecord).transaction_type = .chargeback ∧
      (processTransaction (run Engine.new [⟨.deposit, 2, 5, some 8⟩, ⟨.dispute, 2, 5, none⟩])
          ⟨.chargeback, 2, 5, none⟩).2 = Except.ok () ∧
      (run Engine.new [⟨.deposit, 2, 5, some 8⟩, ⟨.dispute, 2, 5, none⟩]).disputes.contains
        (⟨.chargeback, 2, 5, none⟩ : TransactionRecord).transaction_id = true) :=
  ⟨(claim_c4_locked_monotone (run Engine.new [⟨.deposit, 2, 5, some 8⟩, ⟨.dispute, 2, 5, none⟩,
        ⟨.chargeback, 2, 5, none⟩]) 2 [⟨.deposit, 2, 6, some 3⟩] ⟨.deposit, 1, 1, none⟩).1
      (by decide),
   (claim_c4_locked_monotone (run Engine.new [⟨.deposit, 2, 5, some 8⟩, ⟨.dispute, 2, 5, none⟩])
        2 [] ⟨.chargeback, 2, 5, none⟩).2 (by decide) (by decide)⟩

/-- A deposit or withdrawal whose transaction id is already in the index is
soft-rejected: Ok result, no index or dispute change, every existing account
kept with its exact balances. -/
theorem used_id_reject (e : Engine) (r : TransactionRecord)
    (hk : r.transaction_type = .deposit ∨ r.transaction_type = .withdrawal)
    (hcont : AList.contains e.transactions r.transaction_id = true) :
    (processTransaction e r).2 = Except.ok () ∧
    (processTransaction e r).1.transactions = e.transactions ∧
    (processTransaction e r).1.disputes = e.disputes ∧
    (∀ c acc, AList.find e.accounts c = some acc →
      AList.find (processTransaction e r).1.accounts c = some acc) := by
  apply process_cases e r (fun p =>
    p.2 = Except.ok () ∧
    p.1.transactions = e.transactions ∧
    p.1.disputes = e.disputes ∧
    (∀ c acc, AList.find e.accounts c = some acc →
      AList.find p.1.accounts c = some acc))
  case d1 => exact fun _ _ => ⟨rfl, rfl, rfl, fun _ _ hf => hf⟩
  case d2 => exact fun _ _ _ _ => ⟨rfl, rfl, rfl, fun _ _ hf => find_entryOrNew_of_some _ _ _ _ hf⟩
  case d3 =>
      exact fun _ _ _ _ _ => ⟨rfl, rfl, rfl, fun _ _ hf => find_entryOrNew_of_some _ _ _ _ hf⟩
  case d4 =>
      intro _ _ _ _ hu2
      exact absurd (hu2.symm.trans hcont) (by simp)
  case w1 => exact fun _ _ => ⟨rfl, rfl, rfl, fun _ _ hf => hf⟩
  case w2 => exact fun _ _ _ _ => ⟨rfl, rfl, rfl, fun _ _ hf => hf⟩
  case w3 => exact fun _ _ _ _ _ _ => ⟨rfl, rfl, rfl, fun _ _ hf => hf⟩
  case w4 => exact fun _ _ _ _ _ _ _ => ⟨rfl, rfl, rfl, fun _ _ hf => hf⟩
  case w5 =>
      intro _ _ _ _ _ _ hu2 _
      exact absurd (hu2.symm.trans hcont) (by simp)
  case w6 => exact fun _ _ _ _ _ _ _ _ => ⟨rfl, rfl, rfl, fun _ _ hf => hf⟩
  case s1 => exact fun hty2 _ => absurd hty2 (by rcases hk with hk | hk <;> simp [hk])
  case s2 => exact fun _ hty2 _ _ => absurd hty2 (by rcases hk with hk | hk <;> simp [hk])
  case s3 => exact fun _ hty2 _ _ _ => absurd hty2 (by rcases hk with hk | hk <;> simp [hk])
  case s4 => exact fun _ hty2 _ _ _ _ => absurd hty2 (by rcases hk with hk | hk <;> simp [hk])
  case s5 => exact fun _ _ hty2 _ _ _ _ _ => absurd hty2 (by rcases hk with hk | hk <;> simp [hk])
  case s6 =>
      exact fun _ _ _ hty2 _ _ _ _ _ => absurd hty2 (by rcases hk with hk | hk <;> simp [hk])
  case r1 => exact fun hty2 _ => absurd hty2 (by rcases hk with hk | hk <;> simp [hk])
  case r2 => exact fun hty2 _ _ => absurd hty2 (by rcases hk with hk | hk <;> simp [hk])
  case r3 => exact fun _ hty2 _ _ _ => absurd hty2 (by rcases hk with hk | hk <;> simp [hk])
  case r4 => exact fun _ hty2 _ _ _ _ => absurd hty2 (by rcases hk with hk | hk <;> simp [hk])
  case r5 => exact fun _ _ hty2 _ _ _ _ _ => absurd hty2 (by rcases hk with hk | hk <;> simp [hk])
  case r6 =>
      exact fun _ _ _ hty2 _ _ _ _ _ => absurd hty2 (by rcases hk with hk | hk <;> simp [hk])
  case c1 => exact fun hty2 _ => absurd hty2 (by rcases hk with hk | hk <;> simp [hk])
  case c2 => exact fun hty2 _ _ => absurd hty2 (by rcases hk with hk | hk <;> simp [hk])
  case c3 => exact fun _ hty2 _ _ _ => absurd hty2 (by rcases hk with hk | hk <;> simp [hk])
  case c4 => exact fun _ hty2 _ _ _ _ => absurd hty2 (by rcases hk with hk | hk <;> simp [hk])
  case c5 => exact fun _ _ hty2 _ _ _ _ _ => absurd hty2 (by rcases hk with hk | hk <;> simp [hk])
  case c6 =>
      exact fun _ _ _ hty2 _ _ _ _ _ => absurd hty2 (by rcases hk with hk | hk <;> simp [hk])

/-- C5: once a deposit or withdrawal with id t is in the transaction index,
its entry survives any later sequence of calls unchanged (never replaced),
and any later deposit or withdrawal reusing t is soft-rejected: Ok result, no
index or dispute change, and every account kept with its exact balances. -/
theorem claim_c5_tx_id_never_reused (s : Engine) (rs : List TransactionRecord)
    (r : TransactionRecord) (rec : TransactionRecord)
    (h : AList.find s.transactions r.transaction_id = some rec)
    (hk : r.transaction_type = .deposit ∨ r.transaction_type = .withdrawal) :
    AList.find (run s rs).transactions r.transaction_id = some rec ∧
    (processTransaction (run s rs) r).2 = Except.ok () ∧
    (processTransaction (run s rs) r).1.transactions = (run s rs).transactions ∧
    (processTransaction (run s rs) r).1.disputes = (run s rs).disputes ∧
    (∀ c acc, AList.find (run s rs).accounts c = some acc →
      AList.find (processTransaction (run s rs) r).1.accounts c = some acc) := by
  have h2 := transactions_keep_run s rs r.transaction_id rec h
  have hcont : AList.contains (run s rs).transactions r.transaction_id = true :=
    (AList.contains_eq_true_iff _ _).mpr ⟨rec, h2⟩
  obtain ⟨h3, h4, h5, h6⟩ := used_id_reject (run s rs) r hk hcont
  exact ⟨h2, h3, h4, h5, h6⟩

theorem claim_c5_tx_id_never_reused_witness :
    AList.find (run (run Engine.new [⟨.deposit, 1, 1, some 5⟩])
        [⟨.deposit, 1, 2, some 7⟩]).transactions 1 = some ⟨.deposit, 1, 1, some 5⟩ ∧
    (processTransaction (run (run Engine.new [⟨.deposit, 1, 1, some 5⟩])
        [⟨.deposit, 1, 2, some 7⟩]) ⟨.withdrawal, 1, 1, some 2⟩).2 = Except.ok () ∧
    (processTransaction (run (run Engine.new [⟨.deposit, 1, 1, some 5⟩])
        [⟨.deposit, 1, 2, some 7⟩]) ⟨.withdrawal, 1, 1, some 2⟩).1.transactions =
      (run (run Engine.new [⟨.deposit, 1, 1, some 5⟩]) [⟨.deposit, 1, 2, some 7⟩]).transactions ∧
    (processTransaction (run (run Engine.new [⟨.deposit, 1, 1, some 5⟩])
        [⟨.deposit, 1, 2, some 7⟩]) ⟨.withdrawal, 1, 1, some 2⟩).1.disputes =
      (run (run Engine.new [⟨.deposit, 1, 1, some 5⟩]) [⟨.deposit, 1, 2, some 7⟩]).disputes ∧
    AList.find (processTransaction (run (run Engine.new [⟨.deposit, 1, 1, some 5⟩])
        [⟨.deposit, 1, 2, some 7⟩]) ⟨.withdrawal, 1, 1, some 2⟩).1.accounts 1 =
      some { available := 12, held := 0, total := 12, locked := false } := by
  have H := claim_c5_tx_id_never_reused (run Engine.new [⟨.deposit, 1, 1, some 5⟩])
    [⟨.deposit, 1, 2, some 7⟩] ⟨.withdrawal, 1, 1, some 2⟩ ⟨.deposit, 1, 1, some 5⟩
    (by decide) (by decide)
  exact ⟨H.1, H.2.1, H.2.2.1, H.2.2.2.1,
    H.2.2.2.2 1 { available := 12, held := 0, total := 12, locked := false } (by decide)⟩

theorem dispute_resolve_accounts (l : List (Nat × Account)) (k : Nat) (a : Int) :
    AList.update (AList.update l k
        (fun x => { x with available := x.available - a, held := x.held + a })) k
      (fun x => { x with held := x.held - a, available := x.available + a }) = l := by
  rw [AList.update_update]
  apply AList.update_congr_id
  intro x
  cases x with
  | mk av hd tt lk =>
      show Account.mk ((av - a) + a) ((hd + a) - a) tt lk = Account.mk av hd tt lk
      rw [Int.sub_add_cancel, Int.add_sub_cancel]

/-- C6: a dispute on id t that is accepted, followed immediately by a resolve
for t with the same client id, restores the engine state exactly — in
particular the account's available/held split — removes t from the
open-dispute set (so t is disputable again, the state being exactly the one
in which the dispute was accepted), and the resolve returns Ok. -/
theorem claim_c6_dispute_resolve_roundtrip (e : Engine) (t c : Nat)
    (dt : TransactionRecord) (a : Int) (acc : Account)
    (htx : AList.find e.transactions t = some dt)
    (hcl : c = dt.client_id)
    (hamt : dt.amount = some a)
    (hds : e.disputes.contains t = false)
    (hacc : AList.find e.accounts dt.client_id = some acc) :
    t ∈ (processTransaction e ⟨.dispute, c, t, none⟩).1.disputes ∧
    processTransaction (processTransaction e ⟨.dispute, c, t, none⟩).1
      ⟨.resolve, c, t, none⟩ = (e, Except.ok ()) := by
  have hacc_c : AList.contains e.accounts dt.client_id = true :=
    (AList.contains_eq_true_iff _ _).mpr ⟨acc, hacc⟩
  have h1 := dispute_apply_eq e ⟨.dispute, c, t, none⟩ dt a rfl htx hds hcl hacc_c hamt
  have hs1 : (processTransaction e ⟨.dispute, c, t, none⟩).1 =
      { e with
          accounts := AList.update e.accounts dt.client_id
            (fun x => { x with available := x.available - a, held := x.held + a }),
          disputes := setInsert e.disputes t } := by
    rw [h1]
  constructor
  · rw [hs1]
    show t ∈ setInsert e.disputes t
    exact (mem_setInsert _ _ _).mpr (Or.inl rfl)
  · rw [hs1]
    have h2 := resolve_apply_eq
      { e with
          accounts := AList.update e.accounts dt.client_id
            (fun x => { x with available := x.available - a, held := x.held + a }),
          disputes := setInsert e.disputes t }
      ⟨.resolve, c, t, none⟩ dt a rfl
      (setInsert_contains_self e.disputes t)
      htx hcl
      (by
        show AList.contains (AList.update e.accounts dt.client_id
          (fun x => { x with available := x.available - a, held := x.held + a }))
          dt.client_id = true
        rw [AList.contains_update]
        exact hacc_c)
      hamt
    rw [h2]
    have hmem : t ∉ e.disputes := by simpa using hds
    show (Engine.mk
        (AList.update (AList.update e.accounts dt.client_id
            (fun x => { x with available := x.available - a, held := x.held + a })) dt.client_id
          (fun x => { x with held := x.held - a, available := x.available + a }))
        e.transactions
        (setErase (setInsert e.disputes t) t), Except.ok ()) = (e, Except.ok ())
    rw [dispute_resolve_accounts, setErase_setInsert e.disputes t hmem]

theorem claim_c6_dispute_resolve_roundtrip_witness :
    1 ∈ (processTransaction (run Engine.new [⟨.deposit, 1, 1, some 5⟩])
        ⟨.dispute, 1, 1, none⟩).1.disputes ∧
    processTransaction (processTransaction (run Engine.new [⟨.deposit, 1, 1, some 5⟩])
        ⟨.dispute, 1, 1, none⟩).1 ⟨.resolve, 1, 1, none⟩ =
      (run Engine.new [⟨.deposit, 1, 1, some 5⟩], Except.ok ()) :=
  claim_c6_dispute_resolve_roundtrip (run Engine.new [⟨.deposit, 1, 1, some 5⟩]) 1 1
    ⟨.deposit, 1, 1, some 5⟩ 5 { available := 5, held := 0, total := 5, locked := false }
    (by decide) (by decide) (by decide) (by decide) (by decide)

/-- C7: for an existing unlocked account, a withdrawal with a fresh
transaction id and present amount succeeds exactly when amount <= available
(the boundary is inclusive): on success it subtracts the amount from
available and total (amount equal to available leaves available at exactly
0), and with amount strictly greater than available it is soft-rejected with
no state change at all. -/
theorem claim_c7_withdrawal_boundary (e : Engine) (c t : Nat) (a : Int) (acc : Account)
    (hacc : AList.find e.accounts c = some acc)
    (hl : acc.locked = false)
    (hu : AList.contains e.transactions t = false) :
    (a ≤ acc.available →
      processTransaction e ⟨.withdrawal, c, t, some a⟩ =
        ({ e with
            accounts := AList.update e.accounts c
              (fun x => { x with available := x.available - a, total := x.total - a }),
            transactions := AList.insert e.transactions t ⟨.withdrawal, c, t, some a⟩ },
          Except.ok ())) ∧
    (a = acc.available →
      AList.find (processTransaction e ⟨.withdrawal, c, t, some a⟩).1.accounts c =
        some { acc with available := 0, total := acc.total - a }) ∧
    (acc.available < a →
      processTransaction e ⟨.withdrawal, c, t, some a⟩ = (e, Except.ok ())) := by
  refine ⟨?_, ?_, ?_⟩
  · intro hle
    exact withdrawal_apply_eq e ⟨.withdrawal, c, t, some a⟩ a acc rfl rfl hacc hl hu hle
  · intro heq
    have h1 := withdrawal_apply_eq e ⟨.withdrawal, c, t, some a⟩ a acc rfl rfl hacc hl hu
      (le_of_eq heq)
    rw [h1]
    show AList.find (AList.update e.accounts c
        (fun x => { x with available := x.available - a, total := x.total - a })) c =
      some { acc with available := 0, total := acc.total - a }
    rw [AList.find_update, if_pos rfl, hacc, Option.map_some']
    show some { acc with available := acc.available - a, total := acc.total - a } =
      some { acc with available := 0, total := acc.total - a }
    rw [heq, Int.sub_self]
  · intro hgt
    exact withdrawal_insufficient_eq e ⟨.withdrawal, c, t, some a⟩ a acc rfl rfl hacc hl hu hgt

theorem claim_c7_withdrawal_boundary_witness :
    processTransaction (run Engine.new [⟨.deposit, 1, 1, some 5⟩]) ⟨.withdrawal, 1, 2, some 5⟩ =
      ({ run Engine.new [⟨.deposit, 1, 1, some 5⟩] with
          accounts := AList.update (run Engine.new [⟨.deposit, 1, 1, some 5⟩]).accounts 1
            (fun x => { x with available := x.available - 5, total := x.total - 5 }),
          transactions := AList.insert
            (run Engine.new [⟨.deposit, 1, 1, some 5⟩]).transactions 2
            ⟨.withdrawal, 1, 2, some 5⟩ }, Except.ok ()) ∧
    AList.find (processTransaction (run Engine.new [⟨.deposit, 1, 1, some 5⟩])
        ⟨.withdrawal, 1, 2, some 5⟩).1.accounts 1 =
      some { available := 0, held := 0, total := 0, locked := false } ∧
    processTransaction (run Engine.new [⟨.deposit, 1, 1, some 5⟩]) ⟨.withdrawal, 1, 2, some 6⟩ =
      (run Engine.new [⟨.deposit, 1, 1, some 5⟩], Except.ok ()) := by
  have H := claim_c7_withdrawal_boundary (run Engine.new [⟨.deposit, 1, 1, some 5⟩]) 1 2 5
    { available := 5, held := 0, total := 5, locked := false } (by decide) (by decide) (by decide)
  have H6 := claim_c7_withdrawal_boundary (run Engine.new [⟨.deposit, 1, 1, some 5⟩]) 1 2 6
    { available := 5, held := 0, total := 5, locked := false } (by decide) (by decide) (by decide)
  exact ⟨H.1 (by decide), (H.2.1 (by decide)).trans (by decide), H6.2.2 (by decide)⟩

/-- C8: scenario B, with 8.0000 and 3.0000 the whole-unit decimal values 8 and
3 under the exact Decimal-to-Int embedding. Deposit client 2 tx 5 amount 8,
dispute tx 5, chargeback tx 5 yields for client 2 the account
available 0, held 0, total 0, locked; a subsequent deposit of 3 to client 2 is
soft-rejected (Ok with the state unchanged) and the account stays all-zero
and locked. -/
theorem claim_c8_scenario_b :
    AList.find (run Engine.new [⟨.deposit, 2, 5, some 8⟩, ⟨.dispute, 2, 5, none⟩,
        ⟨.chargeback, 2, 5, none⟩]).accounts 2 =
      some { available := 0, held := 0, total := 0, locked := true } ∧
    softRejected (run Engine.new [⟨.deposit, 2, 5, some 8⟩, ⟨.dispute, 2, 5, none⟩,
        ⟨.chargeback, 2, 5, none⟩]) ⟨.deposit, 2, 6, some 3⟩ = true ∧
    processTransaction (run Engine.new [⟨.deposit, 2, 5, some 8⟩, ⟨.dispute, 2, 5, none⟩,
        ⟨.chargeback, 2, 5, none⟩]) ⟨.deposit, 2, 6, some 3⟩ =
      (run Engine.new [⟨.deposit, 2, 5, some 8⟩, ⟨.dispute, 2, 5, none⟩,
        ⟨.chargeback, 2, 5, none⟩], Except.ok ()) ∧
    AList.find (processTransaction (run Engine.new [⟨.deposit, 2, 5, some 8⟩,
        ⟨.dispute, 2, 5, none⟩, ⟨.chargeback, 2, 5, none⟩])
        ⟨.deposit, 2, 6, some 3⟩).1.accounts 2 =
      some { available := 0, held := 0, total := 0, locked := true } := by
  decide

/-- C9: from a fresh engine, after any sequence of calls every disputed id has
a record in the transaction index and every indexed record's client has an
account; consequently the defensive structural-error branches are unreachable
and the next call returns Ok whatever the record is. -/
theorem claim_c9_structural_branches_unreachable (rs : List TransactionRecord)
    (r : TransactionRecord) :
    DisputesCovered (run Engine.new rs) ∧ ClientsCovered (run Engine.new rs) ∧
    (processTransaction (run Engine.new rs) r).2 = Except.ok () :=
  ⟨(wf_run rs).1, (wf_run rs).2, wf_no_error _ r (wf_run rs).1 (wf_run rs).2⟩

/-- C10: from a fresh engine every stored record has a present amount, so the
amount lookup in the dispute, resolve and chargeback handlers always
succeeds, and each of the three, once it passes its gating checks, performs
its funds movement and dispute-set update instead of silently doing
nothing. -/
theorem claim_c10_stored_amounts_present (rs : List TransactionRecord)
    (r dt : TransactionRecord)
    (htx : AList.find (run Engine.new rs).transactions r.transaction_id = some dt) :
    dt.amount.isSome = true ∧
    (r.transaction_type = .dispute →
      (run Engine.new rs).disputes.contains r.transaction_id = false →
      r.client_id = dt.client_id →
      ∃ a, dt.amount = some a ∧
        processTransaction (run Engine.new rs) r =
          ({ run Engine.new rs with
              accounts := AList.update (run Engine.new rs).accounts dt.client_id
                  (fun x => { x with available := x.available - a, held := x.held + a }),
              disputes := setInsert (run Engine.new rs).disputes r.transaction_id },
            Except.ok ())) ∧
    (r.transaction_type = .resolve →
      (run Engine.new rs).disputes.contains r.transaction_id = true →
      r.client_id = dt.client_id →
      ∃ a, dt.amount = some a ∧
        processTransaction (run Engine.new rs) r =
          ({ run Engine.new rs with
              accounts := AList.update (run Engine.new rs).accounts dt.client_id
                  (fun x => { x with held := x.held - a, available := x.available + a }),
              disputes := setErase (run Engine.new rs).disputes r.transaction_id },
            Except.ok ())) ∧
    (r.transaction_type = .chargeback →
      (run Engine.new rs).disputes.contains r.transaction_id = true →
      r.client_id = dt.client_id →
      ∃ a, dt.amount = some a ∧
        processTransaction (run Engine.new rs) r =
          ({ run Engine.new rs with
              accounts := AList.update (run Engine.new rs).accounts dt.client_id
                  (fun x => { x with held := x.held - a, total := x.total - a, locked := true }),
              disputes := setErase (run Engine.new rs).disputes r.transaction_id },
            Except.ok ())) := by
  have hiso := amounts_run rs r.transaction_id dt htx
  obtain ⟨a, hamt⟩ : ∃ a, dt.amount = some a := by
    cases hdt : dt.amount with
    | none => rw [hdt] at hiso; cases hiso
    | some a => exact ⟨a, rfl⟩
  have hacc : AList.contains (run Engine.new rs).accounts dt.client_id = true :=
    (wf_run rs).2 r.transaction_id dt htx
  refine ⟨hiso, ?_, ?_, ?_⟩
  · intro hty hds hcl
    exact ⟨a, hamt, dispute_apply_eq _ r dt a hty htx hds hcl hacc hamt⟩
  · intro hty hds hcl
    exact ⟨a, hamt, resolve_apply_eq _ r dt a hty hds htx hcl hacc hamt⟩
  · intro hty hds hcl
    exact ⟨a, hamt, chargeback_apply_eq _ r dt a hty hds htx hcl hacc hamt⟩

theorem claim_c10_stored_amounts_present_witness :
    (⟨.deposit, 1, 1, some 5⟩ : TransactionRecord).amount.isSome = true ∧
    (∃ a, (⟨.deposit, 1, 1, some 5⟩ : TransactionRecord).amount = some a ∧
      processTransaction (run Engine.new [⟨.deposit, 1, 1, some 5⟩]) ⟨.dispute, 1, 1, none⟩ =
        ({ run Engine.new [⟨.deposit, 1, 1, some 5⟩] with
            accounts := AList.update (run Engine.new [⟨.deposit, 1, 1, some 5⟩]).accounts 1
                (fun x => { x with available := x.available - a, held := x.held + a }),
            disputes := setInsert (run Engine.new [⟨.deposit, 1, 1, some 5⟩]).disputes 1 },
          Except.ok ())) := by
  have H := claim_c10_stored_amounts_present [⟨.deposit, 1, 1, some 5⟩]
    ⟨.dispute, 1, 1, none⟩ ⟨.deposit, 1, 1, some 5⟩ (by decide)
  exact ⟨H.1, H.2.1 rfl (by decide) rfl⟩

end Claims

end Payments
